import Mathlib

/-!
Shallow embedding of pandapower build_branch.py (branch-parameter derivation and
topology materialization) and proofs about it.  Numpy float arithmetic is modelled
over the exact reals; the complex-valued branch matrix is a list of rows of complex
numbers; dataframes are lists of records.  Fallible numpy/pandas operations
(index errors, broadcast errors, key errors) are modelled with Except.

Modelled from the spec: the helper get_values(source, keys, lookup) of
pandapower.auxiliary (not part of this module) is inlined as reading
source at the looked-up internal index, per the spec description of the
bus-lookup table; the in-service views net._is_elems (also built outside
this module) are inputs of the Net record.
-/

namespace Pandapower

/-- Branch-matrix column indices, from pypower idx_brch (external dependency). -/
def F_BUS : ℕ := 0

def T_BUS : ℕ := 1

def BR_R : ℕ := 2

def BR_X : ℕ := 3

def BR_B : ℕ := 4

def RATE_A : ℕ := 5

def TAP : ℕ := 8

def SHIFT : ℕ := 9

def BR_STATUS : ℕ := 10

def QT : ℕ := 16

/-- Bus-matrix column indices, from pypower idx_bus (external dependency). -/
def BASE_KV : ℕ := 9

def VM : ℕ := 7

def VA : ℕ := 8

/-- One row of net.line. -/
structure LineRow where
  from_bus : ℕ
  to_bus : ℕ
  length_km : ℝ
  r_ohm_per_km : ℝ
  x_ohm_per_km : ℝ
  c_nf_per_km : ℝ
  parallel : ℝ
  in_service : Bool
  max_loading_percent : ℝ
  max_i_ka : ℝ
  df : ℝ

/-- One row of net.trafo (also used for the two-winding equivalents produced by the
three-winding decomposition).  A NaN entry of a tap field is modelled as none; the
embedding does not model arithmetic on NaN, so the tapped branch of the tap
computation requires the tap fields that it reads to be present. -/
structure TrafoRow where
  hv_bus : ℕ
  lv_bus : ℕ
  sn_kva : ℝ
  vn_hv_kv : ℝ
  vn_lv_kv : ℝ
  vsc_percent : ℝ
  vscr_percent : ℝ
  pfe_kw : ℝ
  i0_percent : ℝ
  tp_side : Option String
  tp_pos : Option ℝ
  tp_mid : Option ℝ
  tp_max : Option ℝ
  tp_min : Option ℝ
  tp_st_percent : Option ℝ
  tp_st_degree : Option ℝ
  shift_degree : ℝ
  parallel : ℝ
  in_service : Bool
  max_loading_percent : ℝ

/-- One row of net.trafo3w. -/
structure Trafo3wRow where
  hv_bus : ℕ
  mv_bus : ℕ
  lv_bus : ℕ
  ad_bus : ℕ
  vn_hv_kv : ℝ
  vn_mv_kv : ℝ
  vn_lv_kv : ℝ
  sn_hv_kva : ℝ
  sn_mv_kva : ℝ
  sn_lv_kva : ℝ
  vsc_hv_percent : ℝ
  vsc_mv_percent : ℝ
  vsc_lv_percent : ℝ
  vscr_hv_percent : ℝ
  vscr_mv_percent : ℝ
  vscr_lv_percent : ℝ
  pfe_kw : ℝ
  i0_percent : ℝ
  shift_mv_degree : ℝ
  shift_lv_degree : ℝ
  tp_side : Option String
  tp_pos : Option ℝ
  tp_mid : Option ℝ
  tp_max : Option ℝ
  tp_min : Option ℝ
  tp_st_percent : Option ℝ
  in_service : Bool
  max_loading_percent : ℝ

/-- One row of net.impedance. -/
structure ImpRow where
  from_bus : ℕ
  to_bus : ℕ
  rft_pu : ℝ
  xft_pu : ℝ
  rtf_pu : ℝ
  xtf_pu : ℝ
  sn_kva : ℝ
  in_service : Bool

/-- One row of net.xward. -/
structure XwardRow where
  bus : ℕ
  ad_bus : ℕ
  r_ohm : ℝ
  x_ohm : ℝ

/-- One row of net.switch. -/
structure SwitchRow where
  bus : ℕ
  element : ℕ
  et : String
  closed : Bool

/-- The slice of the pandapower net read by build_branch.py.  The in-service views
net._is_elems (built outside this module) are inputs: linesIs and busIs hold the
index labels of the in-service lines and buses, xwardIs the xward in-service flags.
busLookup is the external-bus-id to internal-index lookup table, busVnKv the bus
table base-voltage column, trafoHasStDegree whether net.trafo has a tp_st_degree
column. -/
structure Net where
  sn_kva : ℝ
  f_hz : ℝ
  line : List LineRow
  lineIdx : List ℕ
  trafo : List TrafoRow
  trafoIdx : List ℕ
  trafo3w : List Trafo3wRow
  impedance : List ImpRow
  xward : List XwardRow
  xwardIs : List Bool
  switch : List SwitchRow
  linesIs : List ℕ
  busIs : List ℕ
  busLookup : ℕ → ℕ
  busVnKv : ℕ → ℝ
  trafoHasStDegree : Bool

/-- The pypower case: a bus matrix (13 real columns) and a branch matrix
(19 complex columns). -/
structure PPC2 where
  bus : List (List ℝ)
  branch : List (List ℂ)

/-- Read a cell of a real matrix (out-of-range reads give 0; all verified reads
are in range). -/
def getRC (m : List (List ℝ)) (i j : ℕ) : ℝ := (m.getD i []).getD j 0

/-- Read a cell of a complex matrix. -/
def getCC (m : List (List ℂ)) (i j : ℕ) : ℂ := (m.getD i []).getD j 0

/-- Write one cell of a complex matrix. -/
def setCC (m : List (List ℂ)) (i j : ℕ) (v : ℂ) : List (List ℂ) :=
  m.set i ((m.getD i []).set j v)

/-- Truncate the real part of a complex value to a natural index,
as numpy .real.astype(int) does for the nonnegative integers stored there. -/
noncomputable def cIdx (z : ℂ) : ℕ := (⌊z.re⌋).toNat

/-- Map a fallible function over a list, failing on the first error
(the effect of vectorized numpy / looped pandas code that can raise). -/
def exceptMap (f : α → Except String β) : List α → Except String (List β)
  | [] => .ok []
  | a :: l =>
    match f a with
    | .error e => .error e
    | .ok b =>
      match exceptMap f l with
      | .error e => .error e
      | .ok r => .ok (b :: r)

theorem exceptMap_ok_length {f : α → Except String β} {l : List α} {r : List β}
    (h : exceptMap f l = .ok r) : r.length = l.length := by
  induction l generalizing r with
  | nil => simp [exceptMap] at h; simp [← h]
  | cons a t ih =>
    unfold exceptMap at h
    rcases ha : f a with e | b <;> rw [ha] at h
    · exact absurd h (by simp)
    · rcases ht : exceptMap f t with e | rt <;> rw [ht] at h
      · exact absurd h (by simp)
      · cases h; simp [ih ht]

theorem exceptMap_ok_getD {f : α → Except String β} {l : List α} {r : List β}
    (h : exceptMap f l = .ok r) (k : ℕ) (hk : k < l.length) (a₀ : α) (b₀ : β) :
    f (l.getD k a₀) = .ok (r.getD k b₀) := by
  induction l generalizing r k with
  | nil => simp at hk
  | cons a t ih =>
    unfold exceptMap at h
    rcases ha : f a with e | b <;> rw [ha] at h
    · exact absurd h (by simp)
    · rcases ht : exceptMap f t with e | rt <;> rw [ht] at h
      · exact absurd h (by simp)
      · cases h
        cases k with
        | zero => simpa using ha
        | succ k => exact ih ht k (by simpa using hk)

/-- Per-unit base impedance: baseR = vn_kv^2 / sn_kva * 1e3 (source line 103). -/
noncomputable def baseRof (vn_kv sn_kva : ℝ) : ℝ := vn_kv ^ 2 / sn_kva * 1000

/-- Per-unit series resistance of one line (source line 109). -/
noncomputable def line_r_pu (net : Net) (ppcBus : List (List ℝ)) (l : LineRow) : ℝ :=
  l.r_ohm_per_km * l.length_km / baseRof (getRC ppcBus (net.busLookup l.from_bus) BASE_KV) net.sn_kva / l.parallel

/-- Per-unit series reactance of one line (source line 110). -/
noncomputable def line_x_pu (net : Net) (ppcBus : List (List ℝ)) (l : LineRow) : ℝ :=
  l.x_ohm_per_km * l.length_km / baseRof (getRC ppcBus (net.busLookup l.from_bus) BASE_KV) net.sn_kva / l.parallel

/-- Per-unit shunt susceptance of one line (source line 111). -/
noncomputable def line_b_pu (net : Net) (ppcBus : List (List ℝ)) (l : LineRow) : ℝ :=
  2 * net.f_hz * Real.pi * l.c_nf_per_km * 1e-9 *
    baseRof (getRC ppcBus (net.busLookup l.from_bus) BASE_KV) net.sn_kva * l.length_km * l.parallel

/-- Constraint column of one line (source lines 113-116). -/
noncomputable def line_rate (net : Net) (cc : Bool) (l : LineRow) : ℝ :=
  if cc then
    l.max_loading_percent / 100 * l.max_i_ka * l.df * l.parallel * (net.busVnKv l.from_bus * Real.sqrt 3)
  else 0

/-- The 7-column value row of one line written into the branch matrix,
in the column order fb, tb, r, x, b, in_service, rate (source lines 104-117). -/
noncomputable def lineRowValues (net : Net) (ppcBus : List (List ℝ)) (cc : Bool) (l : LineRow) : List ℂ :=
  [(net.busLookup l.from_bus : ℂ), (net.busLookup l.to_bus : ℂ),
   (line_r_pu net ppcBus l : ℝ), (line_x_pu net ppcBus l : ℝ), (line_b_pu net ppcBus l : ℝ),
   (if l.in_service then 1 else 0), (line_rate net cc l : ℝ)]

/-- Vectorized line parameter computation (source _calc_line_parameter). -/
noncomputable def _calc_line_parameter (net : Net) (ppcBus : List (List ℝ)) (cc : Bool) :
    List (List ℂ) :=
  net.line.map (lineRowValues net ppcBus cc)

/-- C8: for every line and every parallel count n >= 1, the per-unit resistance and
reactance equal 1/n times the values computed with parallel = 1, and the per-unit
shunt susceptance equals n times the value computed with parallel = 1, all other
inputs held fixed. -/
theorem c8_line_parallel_scaling (net : Net) (ppcBus : List (List ℝ)) (l : LineRow)
    (n : ℕ) (_hn : 1 ≤ n) :
    line_r_pu net ppcBus { l with parallel := (n : ℝ) } =
      line_r_pu net ppcBus { l with parallel := 1 } / n ∧
    line_x_pu net ppcBus { l with parallel := (n : ℝ) } =
      line_x_pu net ppcBus { l with parallel := 1 } / n ∧
    line_b_pu net ppcBus { l with parallel := (n : ℝ) } =
      (n : ℝ) * line_b_pu net ppcBus { l with parallel := 1 } := by
  refine ⟨?_, ?_, ?_⟩ <;> · simp only [line_r_pu, line_x_pu, line_b_pu]; ring

/-- Concrete net for the C8 witness. -/
noncomputable def cnet8 : Net :=
  { sn_kva := 1000, f_hz := 50, line := [], lineIdx := [], trafo := [],
    trafoIdx := [], trafo3w := [], impedance := [], xward := [], xwardIs := [],
    switch := [], linesIs := [], busIs := [], busLookup := id, busVnKv := fun _ => 0,
    trafoHasStDegree := false }

/-- Concrete ppc bus matrix for the C8 witness (one bus with base 20 kV). -/
noncomputable def cbus8 : List (List ℝ) := [[0, 0, 0, 0, 0, 0, 0, 0, 0, 20, 0, 0, 0]]

/-- Concrete line for the C8 witness. -/
noncomputable def cline8 : LineRow :=
  { from_bus := 0, to_bus := 0, length_km := 5, r_ohm_per_km := 1, x_ohm_per_km := 2,
    c_nf_per_km := 10, parallel := 1, in_service := true,
    max_loading_percent := 0, max_i_ka := 0, df := 0 }

/-- Witness for C8 at n = 2 on a concrete line: the per-unit values halve / double. -/
theorem c8_line_parallel_scaling_witness :
    (1 : ℕ) ≤ 2 ∧
    line_r_pu cnet8 cbus8 { cline8 with parallel := ((2 : ℕ) : ℝ) } =
      line_r_pu cnet8 cbus8 { cline8 with parallel := 1 } / ((2 : ℕ) : ℝ) ∧
    line_b_pu cnet8 cbus8 { cline8 with parallel := ((2 : ℕ) : ℝ) } =
      ((2 : ℕ) : ℝ) * line_b_pu cnet8 cbus8 { cline8 with parallel := 1 } := by
  have h := c8_line_parallel_scaling cnet8 cbus8 cline8 2 (by norm_num)
  exact ⟨by norm_num, h.1, h.2.2⟩

/-- Tap-adjusted nominal voltages and phase shift of one transformer
(source _calc_tap_from_dataframe, vectorized there, row-independent): returns
(vn_hv, vn_lv, shift).  cva is calculate_voltage_angles, hasStDeg whether the
dataframe has a tp_st_degree column. -/
noncomputable def _calc_tap_from_dataframe (cva hasStDeg : Bool) (r : TrafoRow) : ℝ × ℝ × ℝ :=
  let shift0 : ℝ := if cva then r.shift_degree else 0
  match r.tp_pos, r.tp_mid, r.tp_st_percent with
  | some pos, some mid, some st =>
    let diff := pos - mid
    if r.tp_side = some "hv" then
      (r.vn_hv_kv * (1 + diff * st / 100), r.vn_lv_kv,
        if cva && hasStDeg then
          match r.tp_st_degree with
          | some d => shift0 + diff * d
          | none => shift0
        else shift0)
    else if r.tp_side = some "lv" then
      (r.vn_hv_kv, r.vn_lv_kv * (1 + diff * st / 100),
        if cva && hasStDeg then
          match r.tp_st_degree with
          | some d => shift0 - diff * d
          | none => shift0
        else shift0)
    else (r.vn_hv_kv, r.vn_lv_kv, shift0)
  | _, _, _ => (r.vn_hv_kv, r.vn_lv_kv, shift0)

/-- C7: for a transformer row with a finite tap position (tap_diff = tp_pos - tp_mid):
tap side hv multiplies the hv nominal voltage by 1 + tap_diff*tp_st_percent/100 and,
when angle calculation is on and a finite step angle exists, adds tap_diff*tp_st_degree
to the shift; tap side lv scales the lv nominal voltage analogously and subtracts
tap_diff*tp_st_degree from the shift. -/
theorem c7_tap_adjustment (r : TrafoRow) (pos mid st : ℝ)
    (hpos : r.tp_pos = some pos) (hmid : r.tp_mid = some mid) (hst : r.tp_st_percent = some st) :
    (r.tp_side = some "hv" →
      (_calc_tap_from_dataframe true true r).1 = r.vn_hv_kv * (1 + (pos - mid) * st / 100) ∧
      (_calc_tap_from_dataframe true true r).2.1 = r.vn_lv_kv ∧
      ∀ d : ℝ, r.tp_st_degree = some d →
        (_calc_tap_from_dataframe true true r).2.2 = r.shift_degree + (pos - mid) * d) ∧
    (r.tp_side = some "lv" →
      (_calc_tap_from_dataframe true true r).1 = r.vn_hv_kv ∧
      (_calc_tap_from_dataframe true true r).2.1 = r.vn_lv_kv * (1 + (pos - mid) * st / 100) ∧
      ∀ d : ℝ, r.tp_st_degree = some d →
        (_calc_tap_from_dataframe true true r).2.2 = r.shift_degree - (pos - mid) * d) := by
  constructor
  · intro hside
    simp [_calc_tap_from_dataframe, hpos, hmid, hst, hside]
    intro d hd
    simp [hd]
  · intro hside
    simp [_calc_tap_from_dataframe, hpos, hmid, hst, hside]
    intro d hd
    simp [hd]

/-- Concrete transformer row (hv tap at position 2, neutral 0, 10 percent steps,
5 degree step angle) for the C7 witness. -/
noncomputable def ctrafo7 : TrafoRow :=
  { hv_bus := 0, lv_bus := 1, sn_kva := 400, vn_hv_kv := 110, vn_lv_kv := 20,
    vsc_percent := 10, vscr_percent := 1, pfe_kw := 0, i0_percent := 0,
    tp_side := some "hv", tp_pos := some 2, tp_mid := some 0, tp_max := some 4,
    tp_min := some (-4), tp_st_percent := some 10, tp_st_degree := some 5,
    shift_degree := 30, parallel := 1, in_service := true, max_loading_percent := 0 }

/-- Witness for C7: on ctrafo7 the adjusted hv voltage is 110*(1+2*10/100) = 132 and
the shift is 30 + 2*5 = 40. -/
theorem c7_tap_adjustment_witness :
    (_calc_tap_from_dataframe true true ctrafo7).1 = 132 ∧
    (_calc_tap_from_dataframe true true ctrafo7).2.2 = 40 := by
  have h := (c7_tap_adjustment ctrafo7 2 0 10 rfl rfl rfl).1 rfl
  refine ⟨?_, ?_⟩
  · rw [h.1]; norm_num [ctrafo7]
  · rw [h.2.2 5 rfl]; norm_num [ctrafo7]

/-- Input of the magnetizing-admittance and short-circuit-impedance computations:
one trafo row together with the aligned entries of the vn_lv vector (bus base
voltage at the lv bus, read from the ppc bus matrix) and the vn_trafo_lv vector
(tap-adjusted nominal lv voltage). -/
structure YInput where
  trafo : TrafoRow
  vn_lv : ℝ
  vn_trafo_lv : ℝ

/-- Iron-loss term of the magnetizing admittance: b_real = pfe_kw / (1000 * vn_lv_kv^2)
* baseR (source line 247). -/
noncomputable def y_b_real (sn_kva : ℝ) (p : YInput) : ℝ :=
  p.trafo.pfe_kw / (1000 * p.trafo.vn_lv_kv ^ 2) * baseRof p.vn_lv sn_kva

/-- No-load term of the magnetizing admittance: radicand
(i0/100*sn/1000)^2 - (pfe/1000)^2 clamped at zero, then
sqrt * baseR / vn_lv_kv^2 (source lines 251-254). -/
noncomputable def y_b_img (sn_kva : ℝ) (p : YInput) : ℝ :=
  Real.sqrt (max ((p.trafo.i0_percent / 100 * p.trafo.sn_kva / 1000) ^ 2 -
      (p.trafo.pfe_kw / 1000) ^ 2) 0) * baseRof p.vn_lv sn_kva / p.trafo.vn_lv_kv ^ 2

/-- Magnetizing admittance of one trafo row before any lv tap correction:
y = - b_real * i - b_img * sign(i0) (source line 255). -/
noncomputable def yRow (sn_kva : ℝ) (p : YInput) : ℂ :=
  -(y_b_real sn_kva p : ℝ) * Complex.I - ((y_b_img sn_kva p * Real.sign p.trafo.i0_percent : ℝ) : ℂ)

/-- The lv tap correction divisor np.square(vn_trafo_lv * vn_lv / vn_lv_kv / vn_lv)
(source line 257). -/
noncomputable def yLvCorr (p : YInput) : ℝ :=
  (p.vn_trafo_lv * p.vn_lv / p.trafo.vn_lv_kv / p.vn_lv) ^ 2

/-- Vectorized magnetizing admittance (source _calc_y_from_dataframe): if any row of
the table has tap side lv, the whole vector is divided elementwise by the correction;
otherwise it is returned unchanged. -/
noncomputable def _calc_y_from_dataframe (sn_kva : ℝ) (rows : List YInput) : List ℂ :=
  if rows.any (fun p => p.trafo.tp_side == some "lv") then
    rows.map (fun p => yRow sn_kva p / ((yLvCorr p : ℝ) : ℂ))
  else
    rows.map (yRow sn_kva)

theorem _calc_y_from_dataframe_length (sn_kva : ℝ) (rows : List YInput) :
    (_calc_y_from_dataframe sn_kva rows).length = rows.length := by
  unfold _calc_y_from_dataframe
  split <;> simp

/-- C4 counterexample input: pfe = 3000 kW, i0 = 100 percent, sn = 5000 kVA,
vn_lv_kv = vn_lv = 1 and system base 1000 kVA, so baseR = 1, the iron-loss term is 3
and the no-load sqrt term is sqrt(25 - 9) = 4. -/
noncomputable def cy4 : YInput :=
  { trafo := { hv_bus := 0, lv_bus := 1, sn_kva := 5000, vn_hv_kv := 1, vn_lv_kv := 1,
               vsc_percent := 0, vscr_percent := 0, pfe_kw := 3000, i0_percent := 100,
               tp_side := none, tp_pos := none, tp_mid := none, tp_max := none,
               tp_min := none, tp_st_percent := none, tp_st_degree := none,
               shift_degree := 0, parallel := 1, in_service := true,
               max_loading_percent := 0 },
    vn_lv := 1, vn_trafo_lv := 1 }

theorem cy4_b_real : y_b_real 1000 cy4 = 3 := by
  simp [y_b_real, cy4, baseRof]
  norm_num

theorem cy4_b_img : y_b_img 1000 cy4 = 4 := by
  unfold y_b_img cy4 baseRof
  norm_num
  rw [show (16 : ℝ) = 4 ^ 2 by norm_num, Real.sqrt_sq (by norm_num : (0 : ℝ) ≤ 4)]

/-- C4 counterexample: the claim predicts, at cy4, a stored susceptance with real part
-(iron-loss term) = -3 and imaginary part -(no-load sqrt term) = -4; the code stores
the two terms in the opposite slots, so the claimed equality is false. -/
theorem c4_susceptance_counterexample :
    ¬ ((yRow 1000 cy4).re = -(3 : ℝ) ∧ (yRow 1000 cy4).im = -(4 : ℝ)) := by
  intro h
  have hre : (yRow 1000 cy4).re = -(4 : ℝ) := by
    unfold yRow
    rw [cy4_b_img]
    have hsign : Real.sign (cy4.trafo.i0_percent) = 1 := by
      rw [show cy4.trafo.i0_percent = 100 from rfl]
      exact Real.sign_of_pos (by norm_num)
    rw [hsign]
    simp
  rw [hre] at h
  have := h.1
  norm_num at this

/-- C4 amended: the stored complex susceptance has real part
-(sqrt of the clamped radicand, scaled by baseR / vn_lv_kv^2) * sign(i0) and
imaginary part -(pfe / (1000 * vn_lv_kv^2) * baseR); for nonnegative pfe, i0 and
system base both stored components are nonpositive (negative-real /
negative-imaginary encoding with the two derived terms in swapped slots,
matching the docstring form (-img + -re*i)). -/
theorem c4_susceptance_amended (sn_kva : ℝ) (p : YInput)
    (hpfe : 0 ≤ p.trafo.pfe_kw) (hi0 : 0 ≤ p.trafo.i0_percent) (hsn : 0 ≤ sn_kva) :
    (yRow sn_kva p).re =
      -(Real.sqrt (max ((p.trafo.i0_percent / 100 * p.trafo.sn_kva / 1000) ^ 2 -
          (p.trafo.pfe_kw / 1000) ^ 2) 0) * baseRof p.vn_lv sn_kva / p.trafo.vn_lv_kv ^ 2) *
        Real.sign p.trafo.i0_percent ∧
    (yRow sn_kva p).im =
      -(p.trafo.pfe_kw / (1000 * p.trafo.vn_lv_kv ^ 2) * baseRof p.vn_lv sn_kva) ∧
    (yRow sn_kva p).re ≤ 0 ∧ (yRow sn_kva p).im ≤ 0 := by
  have hre : (yRow sn_kva p).re = -(y_b_img sn_kva p) * Real.sign p.trafo.i0_percent := by
    unfold yRow; simp
  have him : (yRow sn_kva p).im = -(y_b_real sn_kva p) := by
    unfold yRow; simp
  have hbimg : 0 ≤ y_b_img sn_kva p := by
    unfold y_b_img baseRof
    have h1 : 0 ≤ Real.sqrt (max ((p.trafo.i0_percent / 100 * p.trafo.sn_kva / 1000) ^ 2 -
        (p.trafo.pfe_kw / 1000) ^ 2) 0) := Real.sqrt_nonneg _
    have h2 : 0 ≤ p.vn_lv ^ 2 / sn_kva * 1000 := by positivity
    positivity
  have hbreal : 0 ≤ y_b_real sn_kva p := by
    unfold y_b_real baseRof
    positivity
  refine ⟨?_, ?_, ?_, ?_⟩
  · rw [hre]; unfold y_b_img; ring
  · rw [him]; unfold y_b_real; ring
  · rw [hre]
    rcases lt_or_eq_of_le hi0 with h | h
    · rw [Real.sign_of_pos h]; linarith
    · rw [← h, Real.sign_zero]; simp
  · rw [him]; linarith

/-- Witness for C4 amended at a concrete input with positive parameters. -/
theorem c4_susceptance_amended_witness :
    (0 : ℝ) ≤ 3000 ∧ (0 : ℝ) ≤ 100 ∧ (0 : ℝ) ≤ 1000 ∧
    (yRow 1000 cy4).im = -(3 : ℝ) ∧ (yRow 1000 cy4).re ≤ 0 := by
  have h := c4_susceptance_amended 1000 cy4 (by norm_num [cy4]) (by norm_num [cy4]) (by norm_num)
  refine ⟨by norm_num, by norm_num, by norm_num, ?_, h.2.2.1⟩
  have := h.2.1
  rw [this]
  show -(cy4.trafo.pfe_kw / (1000 * cy4.trafo.vn_lv_kv ^ 2) * baseRof cy4.vn_lv 1000) = -3
  norm_num [cy4, baseRof]

/-- C10: if at least one row of the trafo table has tap side lv, the correction
divisor is applied to the magnetizing admittance of every row, including rows whose
tap side is hv or absent; if no row has tap side lv, no correction is applied. -/
theorem c10_lv_correction_applied_to_all (sn_kva : ℝ) (rows : List YInput)
    (k : ℕ) (hk : k < rows.length)
    (hk2 : k < (_calc_y_from_dataframe sn_kva rows).length) :
    ((∃ p ∈ rows, p.trafo.tp_side = some "lv") →
      (_calc_y_from_dataframe sn_kva rows).get ⟨k, hk2⟩ =
        yRow sn_kva (rows.get ⟨k, hk⟩) / ((yLvCorr (rows.get ⟨k, hk⟩) : ℝ) : ℂ)) ∧
    ((∀ p ∈ rows, p.trafo.tp_side ≠ some "lv") →
      (_calc_y_from_dataframe sn_kva rows).get ⟨k, hk2⟩ = yRow sn_kva (rows.get ⟨k, hk⟩)) := by
  constructor
  · intro hex
    have hany : rows.any (fun p => p.trafo.tp_side == some "lv") = true := by
      rw [List.any_eq_true]
      rcases hex with ⟨p, hp, hside⟩
      exact ⟨p, hp, by simp [hside]⟩
    have heq : _calc_y_from_dataframe sn_kva rows =
        rows.map (fun p => yRow sn_kva p / ((yLvCorr p : ℝ) : ℂ)) := by
      unfold _calc_y_from_dataframe
      rw [if_pos hany]
    simp only [List.get_eq_getElem]
    simp only [heq, List.getElem_map]
  · intro hall
    have hany : rows.any (fun p => p.trafo.tp_side == some "lv") = false := by
      rw [List.any_eq_false]
      intro p hp
      simpa using hall p hp
    have heq : _calc_y_from_dataframe sn_kva rows = rows.map (yRow sn_kva) := by
      unfold _calc_y_from_dataframe
      rw [if_neg (by rw [hany]; exact Bool.false_ne_true)]
    simp only [List.get_eq_getElem]
    simp only [heq, List.getElem_map]

/-- C10 witness inputs: a two-row table whose first row has an lv tap
(vn_trafo_lv = 2 with vn_lv_kv = 1, correction 4) and whose second row has no tap
side; both rows get divided. -/
noncomputable def cy10lv : YInput :=
  { trafo := { hv_bus := 0, lv_bus := 1, sn_kva := 1000, vn_hv_kv := 10, vn_lv_kv := 1,
               vsc_percent := 0, vscr_percent := 0, pfe_kw := 0, i0_percent := 100,
               tp_side := some "lv", tp_pos := some 1, tp_mid := some 0, tp_max := none,
               tp_min := none, tp_st_percent := some 100, tp_st_degree := none,
               shift_degree := 0, parallel := 1, in_service := true,
               max_loading_percent := 0 },
    vn_lv := 1, vn_trafo_lv := 2 }

/-- Second C10 witness row, without a tap side but with correction divisor 4 as well. -/
noncomputable def cy10plain : YInput :=
  { trafo := { hv_bus := 2, lv_bus := 3, sn_kva := 1000, vn_hv_kv := 10, vn_lv_kv := 1,
               vsc_percent := 0, vscr_percent := 0, pfe_kw := 0, i0_percent := 100,
               tp_side := none, tp_pos := none, tp_mid := none, tp_max := none,
               tp_min := none, tp_st_percent := none, tp_st_degree := none,
               shift_degree := 0, parallel := 1, in_service := true,
               max_loading_percent := 0 },
    vn_lv := 1, vn_trafo_lv := 2 }

/-- Witness for C10: in the table [cy10lv, cy10plain] the second row (no tap side)
still gets divided by its correction divisor. -/
theorem c10_lv_correction_witness :
    (1 : ℕ) < ([cy10lv, cy10plain] : List YInput).length ∧
    (_calc_y_from_dataframe 1000 [cy10lv, cy10plain]).get
        ⟨1, by rw [_calc_y_from_dataframe_length]; norm_num⟩ =
      yRow 1000 cy10plain / ((yLvCorr cy10plain : ℝ) : ℂ) := by
  refine ⟨by norm_num, ?_⟩
  have h := (c10_lv_correction_applied_to_all 1000 [cy10lv, cy10plain] 1 (by norm_num)
      (by rw [_calc_y_from_dataframe_length]; norm_num)).1
      ⟨cy10lv, by simp, by simp [cy10lv]⟩
  simpa using h

/-- Short-circuit impedance magnitude of one trafo row: z_sc = vsc/100 / sn * 1000 *
tap_lv where tap_lv = (vn_trafo_lv/vn_lv)^2 * sn_kva * 1e-3 (source lines 311-312). -/
noncomputable def z_sc_row (sn_kva : ℝ) (p : YInput) : ℝ :=
  p.trafo.vsc_percent / 100 / p.trafo.sn_kva * 1000 *
    ((p.vn_trafo_lv / p.vn_lv) ^ 2 * sn_kva * 1e-3)

/-- Short-circuit resistance of one trafo row (source line 313). -/
noncomputable def r_sc_row (sn_kva : ℝ) (p : YInput) : ℝ :=
  p.trafo.vscr_percent / 100 / p.trafo.sn_kva * 1000 *
    ((p.vn_trafo_lv / p.vn_lv) ^ 2 * sn_kva * 1e-3)

/-- Short-circuit reactance x_sc = sqrt(z_sc^2 - r_sc^2) (source line 314).
Real.sqrt of a negative radicand is 0 here where numpy produces NaN. -/
noncomputable def x_sc_row (sn_kva : ℝ) (p : YInput) : ℝ :=
  Real.sqrt ((z_sc_row sn_kva p) ^ 2 - (r_sc_row sn_kva p) ^ 2)

/-- The star-to-delta transform of one branch triple, applied only where y is
nonzero (source _wye_delta). -/
noncomputable def _wye_delta_elem (r x : ℝ) (y : ℂ) : ℝ × ℝ × ℂ :=
  if y = 0 then (r, x, y)
  else
    let za : ℂ := ((r : ℝ) + (x : ℝ) * Complex.I) / 2
    let zc : ℂ := -Complex.I / y
    let zSum : ℂ := za * za + 2 * za * zc
    let zab : ℂ := zSum / zc
    let zbc : ℂ := zSum / za
    (zab.re, zab.im, -2 * Complex.I / zbc)

/-- Elementwise zip of the star-to-delta transform over the three value vectors. -/
noncomputable def _wye_delta : List ℝ → List ℝ → List ℂ → List (ℝ × ℝ × ℂ)
  | r :: rs, x :: xs, y :: ys => _wye_delta_elem r x y :: _wye_delta rs xs ys
  | _, _, _ => []

/-- Source _calc_r_x_y_from_dataframe: computes y, r and x and dispatches on the
transformer model, raising ValueError for any model other than pi and t. -/
noncomputable def _calc_r_x_y_from_dataframe (trafo_model : String) (sn_kva : ℝ)
    (rows : List YInput) : Except String (List ℝ × List ℝ × List ℂ) :=
  let y := _calc_y_from_dataframe sn_kva rows
  let r := rows.map (r_sc_row sn_kva)
  let x := rows.map (x_sc_row sn_kva)
  if trafo_model = "pi" then .ok (r, x, y)
  else if trafo_model = "t" then
    let w := _wye_delta r x y
    .ok (w.map (fun e => e.1), w.map (fun e => e.2.1), w.map (fun e => e.2.2))
  else .error ("Unkonwn Transformer Model " ++ trafo_model)

/-- C9: for every trafo_model other than pi and t, _calc_r_x_y_from_dataframe fails
with the unsupported-configuration error and returns no partial result; for pi and t
it returns a result and does not raise this error. -/
theorem c9_unknown_model_error (trafo_model : String) (sn_kva : ℝ) (rows : List YInput) :
    (trafo_model ≠ "pi" → trafo_model ≠ "t" →
      _calc_r_x_y_from_dataframe trafo_model sn_kva rows =
        .error ("Unkonwn Transformer Model " ++ trafo_model)) ∧
    (trafo_model = "pi" ∨ trafo_model = "t" →
      ∃ v, _calc_r_x_y_from_dataframe trafo_model sn_kva rows = .ok v) := by
  constructor
  · intro h1 h2
    unfold _calc_r_x_y_from_dataframe
    rw [if_neg h1, if_neg h2]
  · rintro (h | h) <;> subst h <;> unfold _calc_r_x_y_from_dataframe <;> simp


/-- Witness for C9: the model string sigma yields the error, and the model pi yields
a result, on an empty table with base 1. -/
theorem c9_unknown_model_error_witness :
    _calc_r_x_y_from_dataframe "sigma" 1 [] = .error "Unkonwn Transformer Model sigma" ∧
    ∃ v, _calc_r_x_y_from_dataframe "pi" 1 [] = .ok v := by
  constructor
  · exact (c9_unknown_model_error "sigma" 1 []).1 (by decide) (by decide)
  · exact (c9_unknown_model_error "pi" 1 []).2 (Or.inl rfl)

/-- The star branch impedance transform z_br_to_bus (source lines 341-347), on the
triple of per-winding values z and power ratings s. -/
noncomputable def z_br_to_bus (z0 z1 z2 s0 s1 s2 : ℝ) : ℝ × ℝ × ℝ :=
  let n0 := s0 * (z0 / min s0 s1)
  let n1 := s0 * (z1 / min s1 s2)
  let n2 := s0 * (z2 / min s0 s2)
  (0.5 * (s0 / s0) * (n0 + n2 - n1),
   0.5 * (s1 / s0) * (n1 + n0 - n2),
   0.5 * (s2 / s0) * (n2 + n1 - n0))

/-- The tap variables of one synthetic two-winding equivalent. -/
structure TapSet where
  tp_side : Option String
  tp_pos : Option ℝ
  tp_mid : Option ℝ
  tp_max : Option ℝ
  tp_min : Option ℝ
  tp_st_percent : Option ℝ

/-- The all-null tap set (the dicts of NaN built at source line 361). -/
def emptyTapSet : TapSet :=
  { tp_side := none, tp_pos := none, tp_mid := none, tp_max := none,
    tp_min := none, tp_st_percent := none }

/-- Source lines 365-374: distribute the tap variables of a three-winding
transformer onto the three two-winding equivalents.  tp_side hv selects index 0,
mv selects 1, and lv selects tp_trafo = 3, which indexes past the end of the
3-element taps list and raises IndexError. -/
def _trafo3w_taps (t : Trafo3wRow) : Except String (TapSet × TapSet × TapSet) :=
  match t.tp_side with
  | none => .ok (emptyTapSet, emptyTapSet, emptyTapSet)
  | some s =>
    let filled : ℕ → TapSet := fun tp_trafo =>
      { tp_side := some (if tp_trafo = 0 then "hv" else "lv"),
        tp_pos := t.tp_pos, tp_mid := t.tp_mid, tp_max := t.tp_max,
        tp_min := t.tp_min, tp_st_percent := t.tp_st_percent }
    if s = "hv" then .ok (filled 0, emptyTapSet, emptyTapSet)
    else if s = "mv" then .ok (emptyTapSet, filled 1, emptyTapSet)
    else if s = "lv" then .error "IndexError: list index out of range"
    else .error "tp_side not recognized"

/-- The three two-winding equivalents of one three-winding transformer, in the
order hv-star, star-mv, star-lv (the dict literals at source lines 375-398). -/
noncomputable def _trafo3w_legs (t : Trafo3wRow) : Except String (TrafoRow × TrafoRow × TrafoRow) :=
  match _trafo3w_taps t with
  | .error e => .error e
  | .ok (taps0, taps1, taps2) =>
    let uk := z_br_to_bus t.vsc_hv_percent t.vsc_mv_percent t.vsc_lv_percent
        t.sn_hv_kva t.sn_mv_kva t.sn_lv_kva
    let ur := z_br_to_bus t.vscr_hv_percent t.vscr_mv_percent t.vscr_lv_percent
        t.sn_hv_kva t.sn_mv_kva t.sn_lv_kva
    .ok
      ({ hv_bus := t.hv_bus, lv_bus := t.ad_bus, sn_kva := t.sn_hv_kva,
         vn_hv_kv := t.vn_hv_kv, vn_lv_kv := t.vn_hv_kv, vsc_percent := uk.1,
         vscr_percent := ur.1, pfe_kw := t.pfe_kw, i0_percent := t.i0_percent,
         tp_side := taps0.tp_side, tp_pos := taps0.tp_pos, tp_mid := taps0.tp_mid,
         tp_max := taps0.tp_max, tp_min := taps0.tp_min,
         tp_st_percent := taps0.tp_st_percent, tp_st_degree := none,
         shift_degree := 0, parallel := 1, in_service := t.in_service,
         max_loading_percent := t.max_loading_percent },
       { hv_bus := t.ad_bus, lv_bus := t.mv_bus, sn_kva := t.sn_mv_kva,
         vn_hv_kv := t.vn_hv_kv, vn_lv_kv := t.vn_mv_kv, vsc_percent := uk.2.1,
         vscr_percent := ur.2.1, pfe_kw := 0, i0_percent := 0,
         tp_side := taps1.tp_side, tp_pos := taps1.tp_pos, tp_mid := taps1.tp_mid,
         tp_max := taps1.tp_max, tp_min := taps1.tp_min,
         tp_st_percent := taps1.tp_st_percent, tp_st_degree := none,
         shift_degree := t.shift_mv_degree, parallel := 1, in_service := t.in_service,
         max_loading_percent := t.max_loading_percent },
       { hv_bus := t.ad_bus, lv_bus := t.lv_bus, sn_kva := t.sn_lv_kva,
         vn_hv_kv := t.vn_hv_kv, vn_lv_kv := t.vn_lv_kv, vsc_percent := uk.2.2,
         vscr_percent := ur.2.2, pfe_kw := 0, i0_percent := 0,
         tp_side := taps2.tp_side, tp_pos := taps2.tp_pos, tp_mid := taps2.tp_mid,
         tp_max := taps2.tp_max, tp_min := taps2.tp_min,
         tp_st_percent := taps2.tp_st_percent, tp_st_degree := none,
         shift_degree := t.shift_lv_degree, parallel := 1, in_service := t.in_service,
         max_loading_percent := t.max_loading_percent })

/-- Source _trafo_df_from_trafo3w.  The loop stores the hv equivalents under dict
keys i, the mv equivalents under i + n and the lv equivalents under i + 2n; the
pandas DataFrame constructor sorts these integer keys, so the resulting table is all
hv legs in table order, then all mv legs, then all lv legs. -/
noncomputable def _trafo_df_from_trafo3w (t3w : List Trafo3wRow) : Except String (List TrafoRow) :=
  match exceptMap _trafo3w_legs t3w with
  | .error e => .error e
  | .ok legs =>
    .ok ((legs.map (fun e => e.1)) ++ (legs.map (fun e => e.2.1)) ++ (legs.map (fun e => e.2.2)))

/-- A default trafo row used as the getD fallback (never read in range). -/
noncomputable def defaultTrafoRow : TrafoRow :=
  { hv_bus := 0, lv_bus := 0, sn_kva := 0, vn_hv_kv := 0, vn_lv_kv := 0,
    vsc_percent := 0, vscr_percent := 0, pfe_kw := 0, i0_percent := 0,
    tp_side := none, tp_pos := none, tp_mid := none, tp_max := none, tp_min := none,
    tp_st_percent := none, tp_st_degree := none, shift_degree := 0, parallel := 1,
    in_service := true, max_loading_percent := 0 }

/-- A default trafo3w row used as the getD fallback. -/
noncomputable def defaultTrafo3wRow : Trafo3wRow :=
  { hv_bus := 0, mv_bus := 0, lv_bus := 0, ad_bus := 0, vn_hv_kv := 0, vn_mv_kv := 0,
    vn_lv_kv := 0, sn_hv_kva := 0, sn_mv_kva := 0, sn_lv_kva := 0,
    vsc_hv_percent := 0, vsc_mv_percent := 0, vsc_lv_percent := 0,
    vscr_hv_percent := 0, vscr_mv_percent := 0, vscr_lv_percent := 0,
    pfe_kw := 0, i0_percent := 0, shift_mv_degree := 0, shift_lv_degree := 0,
    tp_side := none, tp_pos := none, tp_mid := none, tp_max := none, tp_min := none,
    tp_st_percent := none, in_service := true, max_loading_percent := 0 }

/-- C5: the claim says that for tap side lv, the decomposition assigns the tap
variables to the star-lv equivalent and completes without failure; in the code,
tp_trafo = 3 indexes a 3-element list and the decomposition raises IndexError for
every such transformer. -/
theorem c5_lv_tap_indexerror (t3w : List Trafo3wRow) (t : Trafo3wRow)
    (hmem : t ∈ t3w) (hside : t.tp_side = some "lv") :
    ∃ msg, _trafo_df_from_trafo3w t3w = .error msg := by
  have hleg : _trafo3w_legs t = .error "IndexError: list index out of range" := by
    unfold _trafo3w_legs _trafo3w_taps
    rw [hside]
    simp
  have : ∃ msg, exceptMap _trafo3w_legs t3w = .error msg := by
    induction t3w with
    | nil => simp at hmem
    | cons a l ih =>
      unfold exceptMap
      rcases List.mem_cons.mp hmem with h | h
      · subst h
        rw [hleg]
        exact ⟨_, rfl⟩
      · rcases ha : _trafo3w_legs a with e | b
        · exact ⟨_, rfl⟩
        · rcases ih h with ⟨m, hm⟩
          rw [hm]
          exact ⟨m, rfl⟩
  rcases this with ⟨m, hm⟩
  unfold _trafo_df_from_trafo3w
  rw [hm]
  exact ⟨m, rfl⟩

/-- Concrete three-winding transformer with an lv-side tap, the C5 failing input. -/
noncomputable def ct3w5 : Trafo3wRow :=
  { defaultTrafo3wRow with
    hv_bus := 0, mv_bus := 1, lv_bus := 2, ad_bus := 3,
    vn_hv_kv := 110, vn_mv_kv := 20, vn_lv_kv := 10,
    sn_hv_kva := 1000, sn_mv_kva := 1000, sn_lv_kva := 1000,
    vsc_hv_percent := 10, vsc_mv_percent := 10, vsc_lv_percent := 10,
    vscr_hv_percent := 1, vscr_mv_percent := 1, vscr_lv_percent := 1,
    tp_side := some "lv", tp_pos := some 1, tp_mid := some 0,
    tp_max := some 2, tp_min := some (-2), tp_st_percent := some 2 }

/-- Witness for C5: the decomposition of the concrete lv-tapped transformer fails. -/
theorem c5_lv_tap_indexerror_witness :
    ∃ msg, _trafo_df_from_trafo3w [ct3w5] = .error msg := by
  exact c5_lv_tap_indexerror [ct3w5] ct3w5 (by simp) rfl

/-- Value of a mapped list at an in-range index, with an arbitrary default. -/
theorem getD_map_lt {l : List α} (f : α → β) (k : ℕ) (hk : k < l.length) (a₀ : α) (b₀ : β) :
    (l.map f).getD k b₀ = f (l.getD k a₀) := by
  rw [List.getD_eq_getElem _ _ (by simpa using hk), List.getD_eq_getElem _ _ hk,
    List.getElem_map]

/-- The default triple of trafo rows, the getD fallback for leg triples. -/
noncomputable def defaultLegTriple : TrafoRow × TrafoRow × TrafoRow :=
  (defaultTrafoRow, defaultTrafoRow, defaultTrafoRow)

/-- First concrete three-winding transformer for the C6 counterexample
(star bus 10). -/
noncomputable def ct6a : Trafo3wRow :=
  { defaultTrafo3wRow with
    hv_bus := 1, mv_bus := 2, lv_bus := 3, ad_bus := 10,
    vn_hv_kv := 110, vn_mv_kv := 20, vn_lv_kv := 10,
    sn_hv_kva := 1000, sn_mv_kva := 1000, sn_lv_kva := 1000,
    vsc_hv_percent := 10, vsc_mv_percent := 10, vsc_lv_percent := 10,
    vscr_hv_percent := 1, vscr_mv_percent := 1, vscr_lv_percent := 1 }

/-- Second concrete three-winding transformer for the C6 counterexample
(hv bus 20). -/
noncomputable def ct6b : Trafo3wRow :=
  { defaultTrafo3wRow with
    hv_bus := 20, mv_bus := 21, lv_bus := 22, ad_bus := 23,
    vn_hv_kv := 110, vn_mv_kv := 20, vn_lv_kv := 10,
    sn_hv_kva := 1000, sn_mv_kva := 1000, sn_lv_kva := 1000,
    vsc_hv_percent := 10, vsc_mv_percent := 10, vsc_lv_percent := 10,
    vscr_hv_percent := 1, vscr_mv_percent := 1, vscr_lv_percent := 1 }

/-- Value of a triple append at an index inside the first part. -/
theorem getD_append_left3 (l1 l2 l3 : List α) (d : α) (k : ℕ) (h : k < l1.length) :
    (l1 ++ l2 ++ l3).getD k d = l1.getD k d := by
  rw [List.getD_append _ _ _ _ (by simp only [List.length_append]; omega),
    List.getD_append _ _ _ _ h]

/-- Value of a triple append at an index inside the second part. -/
theorem getD_append_mid3 (l1 l2 l3 : List α) (d : α) (k : ℕ) (h : k < l2.length) :
    (l1 ++ l2 ++ l3).getD (l1.length + k) d = l2.getD k d := by
  rw [List.getD_append _ _ _ _ (by simp only [List.length_append]; omega)]
  rw [List.getD_append_right _ _ _ _ (by omega)]
  congr 1
  omega

/-- Value of a triple append at an index inside the third part. -/
theorem getD_append_last3 (l1 l2 l3 : List α) (d : α) (k : ℕ) :
    (l1 ++ l2 ++ l3).getD (l1.length + l2.length + k) d = l3.getD k d := by
  rw [List.getD_append_right _ _ _ _ (by simp only [List.length_append]; omega)]
  congr 1
  simp only [List.length_append]
  omega

/-- C6 counterexample: with two three-winding transformers, the claim says row 1 of
the decomposed table is the star-mv leg of the first transformer, whose from bus is
its star bus (10); in fact row 1 is the hv leg of the second transformer, with from
bus 20. -/
theorem c6_consecutive_rows_counterexample :
    ∃ df, _trafo_df_from_trafo3w [ct6a, ct6b] = .ok df ∧
      (df.getD 1 defaultTrafoRow).hv_bus = 20 ∧ ¬ ((df.getD 1 defaultTrafoRow).hv_bus = 10) := by
  obtain ⟨la, hla, hla1⟩ : ∃ la, _trafo3w_legs ct6a = .ok la ∧ la.1.hv_bus = 1 := by
    unfold _trafo3w_legs _trafo3w_taps
    rw [show ct6a.tp_side = none from rfl]
    exact ⟨_, rfl, rfl⟩
  obtain ⟨lb, hlb, hlb1⟩ : ∃ lb, _trafo3w_legs ct6b = .ok lb ∧ lb.1.hv_bus = 20 := by
    unfold _trafo3w_legs _trafo3w_taps
    rw [show ct6b.tp_side = none from rfl]
    exact ⟨_, rfl, rfl⟩
  have hmap : exceptMap _trafo3w_legs [ct6a, ct6b] = .ok [la, lb] := by
    unfold exceptMap exceptMap exceptMap
    rw [hla, hlb]
  have hdf : _trafo_df_from_trafo3w [ct6a, ct6b] =
      .ok ([la.1, lb.1] ++ [la.2.1, lb.2.1] ++ [la.2.2, lb.2.2]) := by
    unfold _trafo_df_from_trafo3w
    rw [hmap]
    rfl
  have hget : (([la.1, lb.1] ++ [la.2.1, lb.2.1] ++ [la.2.2, lb.2.2]).getD 1
      defaultTrafoRow) = lb.1 := by
    simp [List.getD]
  exact ⟨_, hdf, by rw [hget]; exact hlb1, by rw [hget, hlb1]; decide⟩

/-- C6 amended: the three-winding rows of the decomposed table are grouped by leg
type, not by transformer: with n transformers, row k (k < n) is the hv-star leg of
transformer k, row n + k its star-mv leg and row 2n + k its star-lv leg; the three
rows of one transformer are consecutive only when n = 1. -/
theorem c6_leg_major_order (t3w : List Trafo3wRow) (df : List TrafoRow)
    (h : _trafo_df_from_trafo3w t3w = .ok df) :
    df.length = 3 * t3w.length ∧
    ∀ k, k < t3w.length →
      ∃ tr, _trafo3w_legs (t3w.getD k defaultTrafo3wRow) = .ok tr ∧
        df.getD k defaultTrafoRow = tr.1 ∧
        df.getD (t3w.length + k) defaultTrafoRow = tr.2.1 ∧
        df.getD (2 * t3w.length + k) defaultTrafoRow = tr.2.2 := by
  unfold _trafo_df_from_trafo3w at h
  rcases he : exceptMap _trafo3w_legs t3w with e | legs <;> rw [he] at h
  · exact absurd h (by simp)
  have hlen : legs.length = t3w.length := exceptMap_ok_length he
  cases h
  have hA : (legs.map (fun e => e.1)).length = t3w.length := by simp [hlen]
  have hB : (legs.map (fun e => e.2.1)).length = t3w.length := by simp [hlen]
  constructor
  · simp [hlen]
    omega
  · intro k hk
    refine ⟨legs.getD k defaultLegTriple, exceptMap_ok_getD he k hk _ _, ?_, ?_, ?_⟩
    · rw [getD_append_left3 _ _ _ _ k (by omega)]
      rw [getD_map_lt _ k (by omega) defaultLegTriple defaultTrafoRow]
    · rw [show t3w.length + k = (legs.map (fun e => e.1)).length + k by rw [hA]]
      rw [getD_append_mid3 _ _ _ _ k (by omega)]
      rw [getD_map_lt _ k (by omega) defaultLegTriple defaultTrafoRow]
    · rw [show 2 * t3w.length + k =
          (legs.map (fun e => e.1)).length + (legs.map (fun e => e.2.1)).length + k by
        rw [hA, hB]; ring]
      rw [getD_append_last3 _ _ _ _ k]
      rw [getD_map_lt _ k (by omega) defaultLegTriple defaultTrafoRow]

/-- Witness for C6 amended on the two-transformer input: row 3 (= n + 1) is the
star-mv leg of the second transformer, with from bus its star bus 23. -/
theorem c6_leg_major_order_witness :
    ∃ df, _trafo_df_from_trafo3w [ct6a, ct6b] = .ok df ∧
      (df.getD 3 defaultTrafoRow).hv_bus = 23 := by
  obtain ⟨la, hla⟩ : ∃ la, _trafo3w_legs ct6a = .ok la := by
    unfold _trafo3w_legs _trafo3w_taps
    rw [show ct6a.tp_side = none from rfl]
    exact ⟨_, rfl⟩
  obtain ⟨lb, hlb, hlb1⟩ : ∃ lb, _trafo3w_legs ct6b = .ok lb ∧ lb.2.1.hv_bus = 23 := by
    unfold _trafo3w_legs _trafo3w_taps
    rw [show ct6b.tp_side = none from rfl]
    exact ⟨_, rfl, rfl⟩
  have hmap : exceptMap _trafo3w_legs [ct6a, ct6b] = .ok [la, lb] := by
    unfold exceptMap exceptMap exceptMap
    rw [hla, hlb]
  have hdf : _trafo_df_from_trafo3w [ct6a, ct6b] =
      .ok ([la.1, lb.1] ++ [la.2.1, lb.2.1] ++ [la.2.2, lb.2.2]) := by
    unfold _trafo_df_from_trafo3w
    rw [hmap]
    rfl
  have h := c6_leg_major_order [ct6a, ct6b] _ hdf
  obtain ⟨tr, htr, h0, h1, h2⟩ := h.2 1 (by norm_num)
  have hgetb : ([ct6a, ct6b].getD 1 defaultTrafo3wRow) = ct6b := rfl
  rw [hgetb, hlb] at htr
  injection htr with hh
  subst hh
  refine ⟨_, hdf, ?_⟩
  have hidx : ([ct6a, ct6b] : List Trafo3wRow).length + 1 = 3 := rfl
  rw [hidx] at h1
  rw [h1]
  exact hlb1

/-- The YInput of one trafo row: the aligned vn_lv (bus base voltage at the lv bus)
and vn_trafo_lv (tap-adjusted nominal lv voltage) entries (source lines 184-190). -/
noncomputable def trafoYInput (net : Net) (ppcBus : List (List ℝ)) (cva hasStDeg : Bool)
    (r : TrafoRow) : YInput :=
  { trafo := r,
    vn_lv := getRC ppcBus (net.busLookup r.lv_bus) BASE_KV,
    vn_trafo_lv := (_calc_tap_from_dataframe cva hasStDeg r).2.1 }

/-- Off-nominal tap of one trafo row: (vn_hv/vn_lv) / (base_hv/base_lv)
(source _calc_nominal_ratio_from_dataframe). -/
noncomputable def _calc_nominal_rat_row (net : Net) (ppcBus : List (List ℝ)) (r : TrafoRow)
    (vn_hv_kv vn_lv_kv : ℝ) : ℝ :=
  (vn_hv_kv / vn_lv_kv) /
    (getRC ppcBus (net.busLookup r.hv_bus) BASE_KV /
     getRC ppcBus (net.busLookup r.lv_bus) BASE_KV)

/-- Source _calc_branch_values_from_trafo_df: the 5-column value block
r/parallel, x/parallel, y*parallel, tap, shift per trafo row. -/
noncomputable def _calc_branch_values_from_trafo_df (net : Net) (ppcBus : List (List ℝ))
    (tm : String) (cva hasStDeg : Bool) (trafo_df : List TrafoRow) :
    Except String (List (List ℂ)) :=
  let yin := trafo_df.map (trafoYInput net ppcBus cva hasStDeg)
  match _calc_r_x_y_from_dataframe tm net.sn_kva yin with
  | .error e => .error e
  | .ok rxy =>
    .ok ((List.range trafo_df.length).map (fun k =>
      let r := trafo_df.getD k defaultTrafoRow
      let tapv := _calc_tap_from_dataframe cva hasStDeg r
      [((rxy.1.getD k 0 / r.parallel : ℝ) : ℂ),
       ((rxy.2.1.getD k 0 / r.parallel : ℝ) : ℂ),
       rxy.2.2.getD k 0 * ((r.parallel : ℝ) : ℂ),
       ((_calc_nominal_rat_row net ppcBus r tapv.1 tapv.2.1 : ℝ) : ℂ),
       ((tapv.2.2 : ℝ) : ℂ)]))

/-- Source _calc_trafo_parameter: the 9-column rows of the two-winding transformer
range: hv, lv, r, x, b, tap, shift, in_service, rate. -/
noncomputable def _calc_trafo_parameter (net : Net) (ppcBus : List (List ℝ)) (cva : Bool)
    (tm : String) (cc : Bool) : Except String (List (List ℂ)) :=
  match _calc_branch_values_from_trafo_df net ppcBus tm cva net.trafoHasStDegree net.trafo with
  | .error e => .error e
  | .ok vals =>
    .ok ((List.range net.trafo.length).map (fun k =>
      let r := net.trafo.getD k defaultTrafoRow
      [((net.busLookup r.hv_bus : ℕ) : ℂ), ((net.busLookup r.lv_bus : ℕ) : ℂ)] ++
      vals.getD k [] ++
      [(if r.in_service then 1 else 0),
       ((if cc then r.max_loading_percent / 100 * r.sn_kva / 1000 * r.parallel else 0 : ℝ) : ℂ)]))

/-- Source _calc_trafo3w_parameter: decompose, compute the value block, and build the
9-column rows (the constraint column has no parallel factor here). -/
noncomputable def _calc_trafo3w_parameter (net : Net) (ppcBus : List (List ℝ)) (cva : Bool)
    (tm : String) (cc : Bool) : Except String (List (List ℂ)) :=
  match _trafo_df_from_trafo3w net.trafo3w with
  | .error e => .error e
  | .ok trafo_df =>
    match _calc_branch_values_from_trafo_df net ppcBus tm cva false trafo_df with
    | .error e => .error e
    | .ok vals =>
      .ok ((List.range trafo_df.length).map (fun k =>
        let r := trafo_df.getD k defaultTrafoRow
        [((net.busLookup r.hv_bus : ℕ) : ℂ), ((net.busLookup r.lv_bus : ℕ) : ℂ)] ++
        vals.getD k [] ++
        [(if r.in_service then 1 else 0),
         ((if cc then r.max_loading_percent / 100 * r.sn_kva / 1000 else 0 : ℝ) : ℂ)]))

/-- Source _calc_impedance_parameter: 7 columns; the reverse direction is stored as a
delta from the forward value. -/
noncomputable def _calc_impedance_parameter (net : Net) : List (List ℂ) :=
  net.impedance.map (fun r =>
    [((net.busLookup r.from_bus : ℕ) : ℂ), ((net.busLookup r.to_bus : ℕ) : ℂ),
     ((r.rft_pu / r.sn_kva * net.sn_kva : ℝ) : ℂ),
     ((r.xft_pu / r.sn_kva * net.sn_kva : ℝ) : ℂ),
     (((r.rtf_pu - r.rft_pu) / r.sn_kva * net.sn_kva : ℝ) : ℂ),
     (((r.xtf_pu - r.xft_pu) / r.sn_kva * net.sn_kva : ℝ) : ℂ),
     (if r.in_service then 1 else 0)])

/-- A default xward row used as the getD fallback. -/
noncomputable def defaultXwardRow : XwardRow := { bus := 0, ad_bus := 0, r_ohm := 0, x_ohm := 0 }

/-- Source _calc_xward_parameter: 5 columns with the in-service flag taken from the
is_elems view. -/
noncomputable def _calc_xward_parameter (net : Net) (ppcBus : List (List ℝ)) : List (List ℂ) :=
  (List.range net.xward.length).map (fun k =>
    let r := net.xward.getD k defaultXwardRow
    let baseR := baseRof (getRC ppcBus (net.busLookup r.bus) BASE_KV) net.sn_kva
    [((net.busLookup r.bus : ℕ) : ℂ), ((net.busLookup r.ad_bus : ℕ) : ℂ),
     ((r.r_ohm / baseR : ℝ) : ℂ), ((r.x_ohm / baseR : ℝ) : ℂ),
     (if net.xwardIs.getD k false then 1 else 0)])

/-- Write the listed columns of one row from a value vector. -/
def writeRowCols (row : List ℂ) (cols : List ℕ) (v : List ℂ) : List ℂ :=
  (cols.zip v).foldl (fun r cv => r.set cv.1 cv.2) row

/-- Overwrite the listed columns of the row range starting at lo with the value
rows. -/
def writeCols (m : List (List ℂ)) (lo : ℕ) (cols : List ℕ) (vals : List (List ℂ)) :
    List (List ℂ) :=
  (List.range m.length).map (fun i =>
    if lo ≤ i ∧ i - lo < vals.length then
      writeRowCols (m.getD i []) cols (vals.getD (i - lo) [])
    else m.getD i [])

/-- The numpy fancy-index assignment matrix[lo:hi, cols] = vals: indexing a column
past the row width raises IndexError, and a value block whose shape differs from
(hi-lo, len(cols)) raises a broadcast ValueError; otherwise the cells are written. -/
def setCols (m : List (List ℂ)) (lo hi : ℕ) (cols : List ℕ) (vals : List (List ℂ)) :
    Except String (List (List ℂ)) :=
  if ∀ row ∈ (m.drop lo).take (hi - lo), ∀ c ∈ cols, c < row.length then
    if vals.length = ((m.drop lo).take (hi - lo)).length ∧
        ∀ v ∈ vals, v.length = cols.length then
      .ok (writeCols m lo cols vals)
    else .error "ValueError: could not broadcast input array"
  else .error "IndexError: column index out of bounds"

/-- The 19-column structural default branch row: columns 0-12 are
0,0,0,0,0,250,250,250,1,0,1,-360,360 and the rest are zero (source lines 44-45). -/
noncomputable def defaultBranchRow : List ℂ :=
  [0, 0, 0, 0, 0, 250, 250, 250, 1, 0, 1, -360, 360, 0, 0, 0, 0, 0, 0]

/-- The line write of the full build (source lines 47-49). -/
noncomputable def buildLineStep (net : Net) (ppcBus : List (List ℝ)) (cc : Bool)
    (m : List (List ℂ)) : Except String (List (List ℂ)) :=
  if 0 < net.line.length then
    setCols m 0 net.line.length [F_BUS, T_BUS, BR_R, BR_X, BR_B, BR_STATUS, RATE_A]
      (_calc_line_parameter net ppcBus cc)
  else .ok m

/-- The two-winding transformer write of the full build (source lines 50-54). -/
noncomputable def buildTrafoStep (net : Net) (ppcBus : List (List ℝ)) (cva : Bool)
    (tm : String) (cc : Bool) (m : List (List ℂ)) : Except String (List (List ℂ)) :=
  if net.line.length < net.line.length + net.trafo.length then
    match _calc_trafo_parameter net ppcBus cva tm cc with
    | .error e => .error e
    | .ok tv =>
      setCols m net.line.length (net.line.length + net.trafo.length)
        [F_BUS, T_BUS, BR_R, BR_X, BR_B, TAP, SHIFT, BR_STATUS, RATE_A] tv
  else .ok m

/-- The three-winding transformer write of the full build (source lines 55-57):
9 target columns including RATE_A. -/
noncomputable def buildTrafo3wStep (net : Net) (ppcBus : List (List ℝ)) (cva : Bool)
    (tm : String) (cc : Bool) (m : List (List ℂ)) : Except String (List (List ℂ)) :=
  if net.line.length + net.trafo.length <
      net.line.length + net.trafo.length + net.trafo3w.length * 3 then
    match _calc_trafo3w_parameter net ppcBus cva tm cc with
    | .error e => .error e
    | .ok tv =>
      setCols m (net.line.length + net.trafo.length)
        (net.line.length + net.trafo.length + net.trafo3w.length * 3)
        [F_BUS, T_BUS, BR_R, BR_X, BR_B, TAP, SHIFT, BR_STATUS, RATE_A] tv
  else .ok m

/-- The impedance write of the full build (source lines 58-60). -/
noncomputable def buildImpStep (net : Net) (m : List (List ℂ)) :
    Except String (List (List ℂ)) :=
  if net.line.length + net.trafo.length + net.trafo3w.length * 3 <
      net.line.length + net.trafo.length + net.trafo3w.length * 3 + net.impedance.length then
    setCols m (net.line.length + net.trafo.length + net.trafo3w.length * 3)
      (net.line.length + net.trafo.length + net.trafo3w.length * 3 + net.impedance.length)
      [F_BUS, T_BUS, BR_R, BR_X, 17, 18, BR_STATUS] (_calc_impedance_parameter net)
  else .ok m

/-- The extended-ward write of the full build (source lines 61-63). -/
noncomputable def buildXwardStep (net : Net) (ppcBus : List (List ℝ)) (m : List (List ℂ)) :
    Except String (List (List ℂ)) :=
  if net.line.length + net.trafo.length + net.trafo3w.length * 3 + net.impedance.length <
      net.line.length + net.trafo.length + net.trafo3w.length * 3 + net.impedance.length +
        net.xward.length then
    setCols m (net.line.length + net.trafo.length + net.trafo3w.length * 3 +
        net.impedance.length)
      (net.line.length + net.trafo.length + net.trafo3w.length * 3 + net.impedance.length +
        net.xward.length)
      [F_BUS, T_BUS, BR_R, BR_X, BR_STATUS] (_calc_xward_parameter net ppcBus)
  else .ok m

/-- Source _build_branch_ppc: allocate the branch matrix with the structural
defaults and write each element range in order. -/
noncomputable def _build_branch_ppc (net : Net) (ppc : PPC2) (cva : Bool) (tm : String)
    (cc : Bool) : Except String PPC2 :=
  match buildLineStep net ppc.bus cc
      (List.replicate (net.line.length + net.trafo.length + net.trafo3w.length * 3 +
        net.impedance.length + net.xward.length) defaultBranchRow) with
  | .error e => .error e
  | .ok br1 =>
    match buildTrafoStep net ppc.bus cva tm cc br1 with
    | .error e => .error e
    | .ok br2 =>
      match buildTrafo3wStep net ppc.bus cva tm cc br2 with
      | .error e => .error e
      | .ok br3 =>
        match buildImpStep net br3 with
        | .error e => .error e
        | .ok br4 =>
          match buildXwardStep net ppc.bus br4 with
          | .error e => .error e
          | .ok br5 => .ok { ppc with branch := br5 }

/-- The two-winding step of the incremental update (source lines 715-719): the same
9 columns as the full build, with the constraint flag forwarded. -/
noncomputable def updateTrafoStep (net : Net) (ppc : PPC2) (cva : Bool) (tm : String)
    (cc : Bool) : Except String (List (List ℂ)) :=
  let line_end := net.line.length
  let trafo_end := line_end + net.trafo.length
  if line_end < trafo_end then
    match _calc_trafo_parameter net ppc.bus cva tm cc with
    | .error e => .error e
    | .ok tv =>
      setCols ppc.branch line_end trafo_end
        [F_BUS, T_BUS, BR_R, BR_X, BR_B, TAP, SHIFT, BR_STATUS, RATE_A] tv
  else .ok ppc.branch

/-- The three-winding step of the incremental update (source lines 720-722): the
column list omits RATE_A (8 columns) while _calc_trafo3w_parameter still returns 9
columns, and the constraint flag is not forwarded. -/
noncomputable def updateTrafo3wStep (net : Net) (ppcBus : List (List ℝ))
    (br1 : List (List ℂ)) (cva : Bool) (tm : String) : Except String (List (List ℂ)) :=
  let line_end := net.line.length
  let trafo_end := line_end + net.trafo.length
  let trafo3w_end := trafo_end + net.trafo3w.length * 3
  if trafo_end < trafo3w_end then
    match _calc_trafo3w_parameter net ppcBus cva tm false with
    | .error e => .error e
    | .ok tv =>
      setCols br1 trafo_end trafo3w_end
        [F_BUS, T_BUS, BR_R, BR_X, BR_B, TAP, SHIFT, BR_STATUS] tv
  else .ok br1

/-- Source _update_trafo_trafo3w_ppc: re-run only the transformer steps on the
existing branch matrix. -/
noncomputable def _update_trafo_trafo3w_ppc (net : Net) (ppc : PPC2) (cva : Bool)
    (tm : String) (cc : Bool) : Except String PPC2 :=
  match updateTrafoStep net ppc cva tm cc with
  | .error e => .error e
  | .ok br1 =>
    match updateTrafo3wStep net ppc.bus br1 cva tm with
    | .error e => .error e
    | .ok br2 => .ok { ppc with branch := br2 }

/-- A getD entry at an in-range index is a member of the list. -/
theorem getD_mem_of_lt {l : List α} {k : ℕ} (h : k < l.length) (d : α) : l.getD k d ∈ l := by
  rw [List.getD_eq_getElem _ _ h]
  exact List.getElem_mem h

theorem _trafo_df_from_trafo3w_ok_length {t3w : List Trafo3wRow} {df : List TrafoRow}
    (h : _trafo_df_from_trafo3w t3w = .ok df) : df.length = 3 * t3w.length := by
  unfold _trafo_df_from_trafo3w at h
  rcases he : exceptMap _trafo3w_legs t3w with e | legs <;> rw [he] at h
  · exact absurd h (by simp)
  · cases h
    have hlen := exceptMap_ok_length he
    simp [hlen]
    omega

theorem _calc_branch_values_shape {net : Net} {ppcBus : List (List ℝ)} {tm : String}
    {cva hasStDeg : Bool} {trafo_df : List TrafoRow} {vals : List (List ℂ)}
    (h : _calc_branch_values_from_trafo_df net ppcBus tm cva hasStDeg trafo_df = .ok vals) :
    vals.length = trafo_df.length ∧ ∀ v ∈ vals, v.length = 5 := by
  unfold _calc_branch_values_from_trafo_df at h
  rcases hr : _calc_r_x_y_from_dataframe tm net.sn_kva
      (trafo_df.map (trafoYInput net ppcBus cva hasStDeg)) with e | rxy <;>
    simp only [hr] at h
  · exact absurd h (by simp)
  · cases h
    refine ⟨by simp, ?_⟩
    intro v hv
    simp only [List.mem_map, List.mem_range] at hv
    obtain ⟨k, hk, hkv⟩ := hv
    rw [← hkv]
    rfl

theorem _calc_trafo_parameter_shape {net : Net} {ppcBus : List (List ℝ)} {cva : Bool}
    {tm : String} {cc : Bool} {tv : List (List ℂ)}
    (h : _calc_trafo_parameter net ppcBus cva tm cc = .ok tv) :
    tv.length = net.trafo.length ∧ ∀ v ∈ tv, v.length = 9 := by
  unfold _calc_trafo_parameter at h
  rcases hb : _calc_branch_values_from_trafo_df net ppcBus tm cva net.trafoHasStDegree
      net.trafo with e | vals <;> simp only [hb] at h
  · exact absurd h (by simp)
  · cases h
    obtain ⟨hlen, hw⟩ := _calc_branch_values_shape hb
    refine ⟨by simp, ?_⟩
    intro v hv
    simp only [List.mem_map, List.mem_range] at hv
    obtain ⟨k, hk, hkv⟩ := hv
    rw [← hkv]
    have h5 : (vals.getD k []).length = 5 :=
      hw _ (getD_mem_of_lt (by omega) [])
    simp only [List.length_append, List.length_cons, List.length_nil, h5]

theorem _calc_trafo3w_parameter_shape {net : Net} {ppcBus : List (List ℝ)} {cva : Bool}
    {tm : String} {cc : Bool} {tv : List (List ℂ)}
    (h : _calc_trafo3w_parameter net ppcBus cva tm cc = .ok tv) :
    tv.length = 3 * net.trafo3w.length ∧ ∀ v ∈ tv, v.length = 9 := by
  unfold _calc_trafo3w_parameter at h
  rcases hd : _trafo_df_from_trafo3w net.trafo3w with e | trafo_df <;> simp only [hd] at h
  · exact absurd h (by simp)
  rcases hb : _calc_branch_values_from_trafo_df net ppcBus tm cva false trafo_df
      with e | vals <;> simp only [hb] at h
  · exact absurd h (by simp)
  cases h
  obtain ⟨hlen, hw⟩ := _calc_branch_values_shape hb
  have hdf := _trafo_df_from_trafo3w_ok_length hd
  refine ⟨by simp [hdf], ?_⟩
  intro v hv
  simp only [List.mem_map, List.mem_range] at hv
  obtain ⟨k, hk, hkv⟩ := hv
  rw [← hkv]
  have h5 : (vals.getD k []).length = 5 :=
    hw _ (getD_mem_of_lt (by omega) [])
  simp only [List.length_append, List.length_cons, List.length_nil, h5]

theorem setCols_width_error {m : List (List ℂ)} {lo hi : ℕ} {cols : List ℕ}
    {vals : List (List ℂ)} (h : ∃ v ∈ vals, v.length ≠ cols.length) :
    ∃ msg, setCols m lo hi cols vals = .error msg := by
  unfold setCols
  by_cases h1 : ∀ row ∈ (m.drop lo).take (hi - lo), ∀ c ∈ cols, c < row.length
  · rw [if_pos h1, if_neg]
    · exact ⟨_, rfl⟩
    · rintro ⟨hl, hw⟩
      obtain ⟨v, hv, hne⟩ := h
      exact hne (hw v hv)
  · rw [if_neg h1]
    exact ⟨_, rfl⟩

theorem writeRowCols_length (row : List ℂ) (cols : List ℕ) (v : List ℂ) :
    (writeRowCols row cols v).length = row.length := by
  unfold writeRowCols
  generalize cols.zip v = l
  induction l generalizing row with
  | nil => rfl
  | cons a t ih =>
    rw [List.foldl_cons, ih]
    simp

theorem writeCols_length (m : List (List ℂ)) (lo : ℕ) (cols : List ℕ)
    (vals : List (List ℂ)) : (writeCols m lo cols vals).length = m.length := by
  unfold writeCols
  simp

theorem writeCols_rows_length {m : List (List ℂ)} {L : ℕ}
    (hrows : ∀ row ∈ m, row.length = L) (lo : ℕ) (cols : List ℕ) (vals : List (List ℂ)) :
    ∀ row ∈ writeCols m lo cols vals, row.length = L := by
  intro row hrow
  unfold writeCols at hrow
  simp only [List.mem_map, List.mem_range] at hrow
  obtain ⟨i, hi, hrow⟩ := hrow
  have hmem : m.getD i [] ∈ m := getD_mem_of_lt hi []
  rw [← hrow]
  split
  · rw [writeRowCols_length]
    exact hrows _ hmem
  · exact hrows _ hmem

theorem setCols_ok_of {m : List (List ℂ)} {lo hi : ℕ} {cols : List ℕ} {vals : List (List ℂ)}
    (hrows : ∀ row ∈ m, row.length = 19) (hcols : ∀ c ∈ cols, c < 19)
    (hhi : hi ≤ m.length) (hlen : vals.length = hi - lo)
    (hw : ∀ v ∈ vals, v.length = cols.length) :
    setCols m lo hi cols vals = .ok (writeCols m lo cols vals) := by
  unfold setCols
  have h1 : ∀ row ∈ (m.drop lo).take (hi - lo), ∀ c ∈ cols, c < row.length := by
    intro row hrow c hc
    have hm : row ∈ m := List.mem_of_mem_drop (List.mem_of_mem_take hrow)
    rw [hrows row hm]
    exact hcols c hc
  have h2 : vals.length = ((m.drop lo).take (hi - lo)).length ∧
      ∀ v ∈ vals, v.length = cols.length := by
    refine ⟨?_, hw⟩
    rw [hlen, List.length_take, List.length_drop]
    omega
  rw [if_pos h1, if_pos h2]

/-- Packaging of a successful range write preserving the matrix shape. -/
theorem build_stage_ok {m : List (List ℂ)} {lo hi : ℕ} {cols : List ℕ}
    {vals : List (List ℂ)} (hrows : ∀ row ∈ m, row.length = 19)
    (hcols : ∀ c ∈ cols, c < 19) (hhi : hi ≤ m.length) (hlen : vals.length = hi - lo)
    (hw : ∀ v ∈ vals, v.length = cols.length) :
    ∃ m2, setCols m lo hi cols vals = .ok m2 ∧ m2.length = m.length ∧
      ∀ row ∈ m2, row.length = 19 :=
  ⟨_, setCols_ok_of hrows hcols hhi hlen hw, writeCols_length m lo cols vals,
    writeCols_rows_length hrows lo cols vals⟩

theorem _calc_line_parameter_shape (net : Net) (ppcBus : List (List ℝ)) (cc : Bool) :
    (_calc_line_parameter net ppcBus cc).length = net.line.length ∧
    ∀ v ∈ _calc_line_parameter net ppcBus cc, v.length = 7 := by
  refine ⟨by simp [_calc_line_parameter], ?_⟩
  intro v hv
  simp only [_calc_line_parameter, List.mem_map] at hv
  obtain ⟨l, _, hlv⟩ := hv
  rw [← hlv]
  rfl

theorem _calc_impedance_parameter_shape (net : Net) :
    (_calc_impedance_parameter net).length = net.impedance.length ∧
    ∀ v ∈ _calc_impedance_parameter net, v.length = 7 := by
  refine ⟨by simp [_calc_impedance_parameter], ?_⟩
  intro v hv
  simp only [_calc_impedance_parameter, List.mem_map] at hv
  obtain ⟨l, _, hlv⟩ := hv
  rw [← hlv]
  rfl

theorem _calc_xward_parameter_shape (net : Net) (ppcBus : List (List ℝ)) :
    (_calc_xward_parameter net ppcBus).length = net.xward.length ∧
    ∀ v ∈ _calc_xward_parameter net ppcBus, v.length = 5 := by
  refine ⟨by simp [_calc_xward_parameter], ?_⟩
  intro v hv
  simp only [_calc_xward_parameter, List.mem_map, List.mem_range] at hv
  obtain ⟨k, _, hkv⟩ := hv
  rw [← hkv]
  rfl

/-- C1: the incremental update can never reproduce the full rebuild on a net with a
three-winding transformer: its three-winding write targets 8 columns (RATE_A is
omitted) while _calc_trafo3w_parameter always returns 9 columns, so the numpy
assignment raises, whereas the full rebuild (writing all 9 columns) succeeds on the
same input whenever the transformer computations themselves succeed. -/
theorem c1_update_vs_rebuild (net : Net) (ppc : PPC2) (cva : Bool) (tm : String)
    (cc : Bool) (h3w : net.trafo3w ≠ []) :
    (∃ msg, _update_trafo_trafo3w_ppc net ppc cva tm cc = .error msg) ∧
    (∀ tv2 tv3, _calc_trafo_parameter net ppc.bus cva tm cc = .ok tv2 →
      _calc_trafo3w_parameter net ppc.bus cva tm cc = .ok tv3 →
      ∃ p, _build_branch_ppc net ppc cva tm cc = .ok p) := by
  have h3len : 0 < net.trafo3w.length := List.length_pos.mpr h3w
  constructor
  · rcases h1 : updateTrafoStep net ppc cva tm cc with e | br1
    · exact ⟨e, by simp only [_update_trafo_trafo3w_ppc, h1]⟩
    · obtain ⟨m2, hm2⟩ : ∃ m2, updateTrafo3wStep net ppc.bus br1 cva tm = .error m2 := by
        have hcond : net.line.length + net.trafo.length <
            net.line.length + net.trafo.length + net.trafo3w.length * 3 := by omega
        simp only [updateTrafo3wStep]
        rw [if_pos hcond]
        rcases h2 : _calc_trafo3w_parameter net ppc.bus cva tm false with e2 | tv
        · exact ⟨e2, rfl⟩
        · obtain ⟨hlen, hw⟩ := _calc_trafo3w_parameter_shape h2
          have hsc : ∃ msg, setCols br1 (net.line.length + net.trafo.length)
              (net.line.length + net.trafo.length + net.trafo3w.length * 3)
              [F_BUS, T_BUS, BR_R, BR_X, BR_B, TAP, SHIFT, BR_STATUS] tv = .error msg := by
            apply setCols_width_error
            have hne : tv ≠ [] := by
              intro hnil
              rw [hnil] at hlen
              simp only [List.length_nil] at hlen
              omega
            obtain ⟨v, hv⟩ := List.exists_mem_of_ne_nil tv hne
            refine ⟨v, hv, ?_⟩
            rw [hw v hv]
            decide
          exact hsc
      exact ⟨m2, by simp only [_update_trafo_trafo3w_ppc, h1, hm2]⟩
  · intro tv2 tv3 h2 h3
    obtain ⟨hlen2, hw2⟩ := _calc_trafo_parameter_shape h2
    obtain ⟨hlen3, hw3⟩ := _calc_trafo3w_parameter_shape h3
    have hc7 : ∀ c ∈ ([F_BUS, T_BUS, BR_R, BR_X, BR_B, BR_STATUS, RATE_A] : List ℕ),
        c < 19 := by decide
    have hc9 : ∀ c ∈ ([F_BUS, T_BUS, BR_R, BR_X, BR_B, TAP, SHIFT, BR_STATUS, RATE_A] :
        List ℕ), c < 19 := by decide
    have hcImp : ∀ c ∈ ([F_BUS, T_BUS, BR_R, BR_X, 17, 18, BR_STATUS] : List ℕ),
        c < 19 := by decide
    have hcXw : ∀ c ∈ ([F_BUS, T_BUS, BR_R, BR_X, BR_STATUS] : List ℕ), c < 19 := by decide
    have hbr0rows : ∀ row ∈ List.replicate (net.line.length + net.trafo.length +
        net.trafo3w.length * 3 + net.impedance.length + net.xward.length)
        defaultBranchRow, row.length = 19 := by
      intro row hrow
      rw [List.eq_of_mem_replicate hrow]
      rfl
    have hbr0len : (List.replicate (net.line.length + net.trafo.length +
        net.trafo3w.length * 3 + net.impedance.length + net.xward.length)
        defaultBranchRow).length = net.line.length + net.trafo.length +
        net.trafo3w.length * 3 + net.impedance.length + net.xward.length := by
      simp
    obtain ⟨br1, hs1, hlen1, hrows1⟩ : ∃ br1,
        buildLineStep net ppc.bus cc (List.replicate (net.line.length + net.trafo.length +
          net.trafo3w.length * 3 + net.impedance.length + net.xward.length)
          defaultBranchRow) = .ok br1 ∧
        br1.length = net.line.length + net.trafo.length + net.trafo3w.length * 3 +
          net.impedance.length + net.xward.length ∧
        ∀ row ∈ br1, row.length = 19 := by
      unfold buildLineStep
      by_cases hc : 0 < net.line.length
      · rw [if_pos hc]
        obtain ⟨hl, hwl⟩ := _calc_line_parameter_shape net ppc.bus cc
        have hhi : net.line.length ≤ (List.replicate (net.line.length + net.trafo.length +
            net.trafo3w.length * 3 + net.impedance.length + net.xward.length)
            defaultBranchRow).length := by
          rw [hbr0len]; omega
        have hvlen : (_calc_line_parameter net ppc.bus cc).length = net.line.length - 0 := by
          rw [hl]
          omega
        have hvw : ∀ v ∈ _calc_line_parameter net ppc.bus cc,
            v.length = ([F_BUS, T_BUS, BR_R, BR_X, BR_B, BR_STATUS, RATE_A] :
              List ℕ).length := by
          intro v hv; rw [hwl v hv]; rfl
        obtain ⟨m2, hm2, hml, hmr⟩ := build_stage_ok hbr0rows hc7 hhi hvlen hvw
        exact ⟨m2, hm2, by rw [hml, hbr0len], hmr⟩
      · rw [if_neg hc]
        exact ⟨_, rfl, hbr0len, hbr0rows⟩
    obtain ⟨br2, hs2, hlen2b, hrows2⟩ : ∃ br2,
        buildTrafoStep net ppc.bus cva tm cc br1 = .ok br2 ∧
        br2.length = br1.length ∧ ∀ row ∈ br2, row.length = 19 := by
      unfold buildTrafoStep
      by_cases hc : net.line.length < net.line.length + net.trafo.length
      · rw [if_pos hc, h2]
        have hhi : net.line.length + net.trafo.length ≤ br1.length := by
          rw [hlen1]; omega
        have hvlen : tv2.length = net.line.length + net.trafo.length - net.line.length := by
          rw [hlen2]; omega
        have hvw : ∀ v ∈ tv2, v.length = ([F_BUS, T_BUS, BR_R, BR_X, BR_B, TAP, SHIFT,
            BR_STATUS, RATE_A] : List ℕ).length := by
          intro v hv; rw [hw2 v hv]; rfl
        obtain ⟨m2, hm2, hml, hmr⟩ := build_stage_ok hrows1 hc9 hhi hvlen hvw
        exact ⟨m2, hm2, hml, hmr⟩
      · rw [if_neg hc]
        exact ⟨br1, rfl, rfl, hrows1⟩
    obtain ⟨br3, hs3, hlen3b, hrows3⟩ : ∃ br3,
        buildTrafo3wStep net ppc.bus cva tm cc br2 = .ok br3 ∧
        br3.length = br2.length ∧ ∀ row ∈ br3, row.length = 19 := by
      unfold buildTrafo3wStep
      by_cases hc : net.line.length + net.trafo.length <
          net.line.length + net.trafo.length + net.trafo3w.length * 3
      · rw [if_pos hc, h3]
        have hhi : net.line.length + net.trafo.length + net.trafo3w.length * 3 ≤
            br2.length := by
          rw [hlen2b, hlen1]; omega
        have hvlen : tv3.length = net.line.length + net.trafo.length +
            net.trafo3w.length * 3 - (net.line.length + net.trafo.length) := by
          rw [hlen3]; omega
        have hvw : ∀ v ∈ tv3, v.length = ([F_BUS, T_BUS, BR_R, BR_X, BR_B, TAP, SHIFT,
            BR_STATUS, RATE_A] : List ℕ).length := by
          intro v hv; rw [hw3 v hv]; rfl
        obtain ⟨m2, hm2, hml, hmr⟩ := build_stage_ok hrows2 hc9 hhi hvlen hvw
        exact ⟨m2, hm2, hml, hmr⟩
      · rw [if_neg hc]
        exact ⟨br2, rfl, rfl, hrows2⟩
    obtain ⟨br4, hs4, hlen4, hrows4⟩ : ∃ br4,
        buildImpStep net br3 = .ok br4 ∧
        br4.length = br3.length ∧ ∀ row ∈ br4, row.length = 19 := by
      unfold buildImpStep
      by_cases hc : net.line.length + net.trafo.length + net.trafo3w.length * 3 <
          net.line.length + net.trafo.length + net.trafo3w.length * 3 + net.impedance.length
      · rw [if_pos hc]
        obtain ⟨hl, hwl⟩ := _calc_impedance_parameter_shape net
        have hhi : net.line.length + net.trafo.length + net.trafo3w.length * 3 +
            net.impedance.length ≤ br3.length := by
          rw [hlen3b, hlen2b, hlen1]; omega
        have hvlen : (_calc_impedance_parameter net).length =
            net.line.length + net.trafo.length + net.trafo3w.length * 3 +
              net.impedance.length - (net.line.length + net.trafo.length +
              net.trafo3w.length * 3) := by
          rw [hl]; omega
        have hvw : ∀ v ∈ _calc_impedance_parameter net,
            v.length = ([F_BUS, T_BUS, BR_R, BR_X, 17, 18, BR_STATUS] : List ℕ).length := by
          intro v hv; rw [hwl v hv]; rfl
        obtain ⟨m2, hm2, hml, hmr⟩ := build_stage_ok hrows3 hcImp hhi hvlen hvw
        exact ⟨m2, hm2, hml, hmr⟩
      · rw [if_neg hc]
        exact ⟨br3, rfl, rfl, hrows3⟩
    obtain ⟨br5, hs5⟩ : ∃ br5, buildXwardStep net ppc.bus br4 = .ok br5 := by
      unfold buildXwardStep
      by_cases hc : net.line.length + net.trafo.length + net.trafo3w.length * 3 +
          net.impedance.length < net.line.length + net.trafo.length +
          net.trafo3w.length * 3 + net.impedance.length + net.xward.length
      · rw [if_pos hc]
        obtain ⟨hl, hwl⟩ := _calc_xward_parameter_shape net ppc.bus
        have hhi : net.line.length + net.trafo.length + net.trafo3w.length * 3 +
            net.impedance.length + net.xward.length ≤ br4.length := by
          rw [hlen4, hlen3b, hlen2b, hlen1]
        have hvlen : (_calc_xward_parameter net ppc.bus).length =
            net.line.length + net.trafo.length + net.trafo3w.length * 3 +
              net.impedance.length + net.xward.length - (net.line.length +
              net.trafo.length + net.trafo3w.length * 3 + net.impedance.length) := by
          rw [hl]; omega
        have hvw : ∀ v ∈ _calc_xward_parameter net ppc.bus,
            v.length = ([F_BUS, T_BUS, BR_R, BR_X, BR_STATUS] : List ℕ).length := by
          intro v hv; rw [hwl v hv]; rfl
        obtain ⟨m2, hm2, hml, hmr⟩ := build_stage_ok hrows4 hcXw hhi hvlen hvw
        exact ⟨m2, hm2⟩
      · rw [if_neg hc]
        exact ⟨br4, rfl⟩
    exact ⟨{ ppc with branch := br5 },
      by simp only [_build_branch_ppc, hs1, hs2, hs3, hs4, hs5]⟩

theorem _trafo3w_taps_ok {t : Trafo3wRow}
    (h : t.tp_side = none ∨ t.tp_side = some "hv" ∨ t.tp_side = some "mv") :
    ∃ ts, _trafo3w_taps t = .ok ts := by
  unfold _trafo3w_taps
  rcases h with h0 | h0 | h0 <;> rw [h0] <;> exact ⟨_, rfl⟩

theorem _trafo3w_legs_ok {t : Trafo3wRow}
    (h : t.tp_side = none ∨ t.tp_side = some "hv" ∨ t.tp_side = some "mv") :
    ∃ la, _trafo3w_legs t = .ok la := by
  obtain ⟨ts, hts⟩ := _trafo3w_taps_ok h
  unfold _trafo3w_legs
  rw [hts]
  exact ⟨_, rfl⟩

theorem _trafo_df_from_trafo3w_ok {t3w : List Trafo3wRow}
    (h : ∀ t ∈ t3w, t.tp_side = none ∨ t.tp_side = some "hv" ∨ t.tp_side = some "mv") :
    ∃ df, _trafo_df_from_trafo3w t3w = .ok df := by
  have hmap : ∃ legs, exceptMap _trafo3w_legs t3w = .ok legs := by
    induction t3w with
    | nil => exact ⟨[], rfl⟩
    | cons a l ih =>
      obtain ⟨la, hla⟩ := _trafo3w_legs_ok (h a (by simp))
      obtain ⟨legs, hlegs⟩ := ih (fun t ht => h t (by simp [ht]))
      refine ⟨la :: legs, ?_⟩
      unfold exceptMap
      rw [hla, hlegs]
  obtain ⟨legs, hlegs⟩ := hmap
  unfold _trafo_df_from_trafo3w
  rw [hlegs]
  exact ⟨_, rfl⟩

theorem _calc_branch_values_ok_pi (net : Net) (ppcBus : List (List ℝ))
    (cva hasStDeg : Bool) (trafo_df : List TrafoRow) :
    ∃ vals, _calc_branch_values_from_trafo_df net ppcBus "pi" cva hasStDeg trafo_df =
      .ok vals := by
  have hrxy : _calc_r_x_y_from_dataframe "pi" net.sn_kva
      (trafo_df.map (trafoYInput net ppcBus cva hasStDeg)) =
      .ok (((trafo_df.map (trafoYInput net ppcBus cva hasStDeg)).map (r_sc_row net.sn_kva)),
        ((trafo_df.map (trafoYInput net ppcBus cva hasStDeg)).map (x_sc_row net.sn_kva)),
        (_calc_y_from_dataframe net.sn_kva
          (trafo_df.map (trafoYInput net ppcBus cva hasStDeg)))) := by
    unfold _calc_r_x_y_from_dataframe
    rw [if_pos rfl]
  simp only [_calc_branch_values_from_trafo_df, hrxy]
  exact ⟨_, rfl⟩

theorem _calc_trafo3w_parameter_ok_pi (net : Net) (ppcBus : List (List ℝ))
    (cva cc : Bool)
    (h : ∀ t ∈ net.trafo3w, t.tp_side = none ∨ t.tp_side = some "hv" ∨
      t.tp_side = some "mv") :
    ∃ tv, _calc_trafo3w_parameter net ppcBus cva "pi" cc = .ok tv := by
  obtain ⟨df, hdf⟩ := _trafo_df_from_trafo3w_ok h
  obtain ⟨vals, hvals⟩ := _calc_branch_values_ok_pi net ppcBus cva false df
  simp only [_calc_trafo3w_parameter, hdf, hvals]
  exact ⟨_, rfl⟩

/-- Concrete one-trafo3w net for the C1 witness. -/
noncomputable def cnet1 : Net :=
  { sn_kva := 1000, f_hz := 50, line := [], lineIdx := [], trafo := [], trafoIdx := [],
    trafo3w := [{ defaultTrafo3wRow with
      hv_bus := 0, mv_bus := 1, lv_bus := 2, ad_bus := 3,
      vn_hv_kv := 110, vn_mv_kv := 20, vn_lv_kv := 10,
      sn_hv_kva := 1000, sn_mv_kva := 1000, sn_lv_kva := 1000,
      vsc_hv_percent := 10, vsc_mv_percent := 10, vsc_lv_percent := 10,
      vscr_hv_percent := 1, vscr_mv_percent := 1, vscr_lv_percent := 1 }],
    impedance := [], xward := [], xwardIs := [], switch := [], linesIs := [], busIs := [],
    busLookup := id, busVnKv := fun _ => 0, trafoHasStDegree := false }

/-- Concrete ppc (as left by a previous build) for the C1 witness. -/
noncomputable def cppc1 : PPC2 :=
  { bus := [[0, 1, 0, 0, 0, 0, 1, 1, 0, 110, 1, 1.1, 0.9],
            [1, 1, 0, 0, 0, 0, 1, 1, 0, 20, 1, 1.1, 0.9],
            [2, 1, 0, 0, 0, 0, 1, 1, 0, 10, 1, 1.1, 0.9],
            [3, 1, 0, 0, 0, 0, 1, 1, 0, 110, 1, 1.1, 0.9]],
    branch := [defaultBranchRow, defaultBranchRow, defaultBranchRow] }

/-- Witness for C1: on the concrete one-trafo3w net the update raises while the full
rebuild succeeds. -/
theorem c1_update_vs_rebuild_witness :
    (∃ msg, _update_trafo_trafo3w_ppc cnet1 cppc1 false "pi" false = .error msg) ∧
    (∃ p, _build_branch_ppc cnet1 cppc1 false "pi" false = .ok p) := by
  have hne : cnet1.trafo3w ≠ [] := by
    simp [cnet1]
  have h := c1_update_vs_rebuild cnet1 cppc1 false "pi" false hne
  refine ⟨h.1, ?_⟩
  obtain ⟨vals, hvals⟩ :=
    _calc_branch_values_ok_pi cnet1 cppc1.bus false cnet1.trafoHasStDegree cnet1.trafo
  have hvals0 : vals = [] := by
    have hs := (_calc_branch_values_shape hvals).1
    rw [show cnet1.trafo = [] from rfl] at hs
    simpa using List.length_eq_zero.mp (by simpa using hs)
  have h2 : _calc_trafo_parameter cnet1 cppc1.bus false "pi" false = .ok [] := by
    unfold _calc_trafo_parameter
    rw [hvals]
    rw [hvals0]
    rw [show cnet1.trafo = [] from rfl]
    rfl
  obtain ⟨tv3, h3⟩ := _calc_trafo3w_parameter_ok_pi cnet1 cppc1.bus false false
    (by
      intro t ht
      rw [show cnet1.trafo3w = [{ defaultTrafo3wRow with
        hv_bus := 0, mv_bus := 1, lv_bus := 2, ad_bus := 3,
        vn_hv_kv := 110, vn_mv_kv := 20, vn_lv_kv := 10,
        sn_hv_kva := 1000, sn_mv_kva := 1000, sn_lv_kva := 1000,
        vsc_hv_percent := 10, vsc_mv_percent := 10, vsc_lv_percent := 10,
        vscr_hv_percent := 1, vscr_mv_percent := 1, vscr_lv_percent := 1 }] from rfl] at ht
      simp at ht
      subst ht
      left
      rfl)
  exact h.2 [] tv3 h2 h3

/-- Mask marking the first occurrence of each value (np.unique with return_index,
source lines 480-481); the first argument accumulates the values already seen. -/
def firstOccMask : List ℕ → List ℕ → List Bool
  | _, [] => []
  | seen, x :: xs => (!seen.contains x) :: firstOccMask (x :: seen) xs

/-- The open bus-line switches (source lines 475-476). -/
def openLineSwitches (net : Net) : List SwitchRow :=
  net.switch.filter (fun s => !s.closed && s.et == "l")

/-- The open trafo switches (source line 509): no in-service or duplicate filtering
is applied to these. -/
def openTrafoSwitches (net : Net) : List SwitchRow :=
  net.switch.filter (fun s => !s.closed && s.et == "t")

/-- The line labels carrying more than one open switch, with multiplicity: the
elements of the open-line-switch element vector at non-first-occurrence positions
(source sw_elem with the mask m, lines 479-484). -/
def dupLineSwitchElems (net : Net) : List ℕ :=
  (((((openLineSwitches net).map (fun s => s.element)).zip
      (firstOccMask [] ((openLineSwitches net).map (fun s => s.element)))).filter
      (fun p => !p.2)).map (fun p => p.1))

/-- Row of the full line table under a given index label. -/
def lineAt (net : Net) (l : ℕ) : Option LineRow :=
  ((net.lineIdx.zip net.line).find? (fun p => p.1 == l)).map (fun p => p.2)

/-- Row of the full trafo table under a given index label. -/
def trafoAt (net : Net) (l : ℕ) : Option TrafoRow :=
  ((net.trafoIdx.zip net.trafo).find? (fun p => p.1 == l)).map (fun p => p.2)

/-- From buses of the duplicated-switch lines that are in the in-service view
(lines_is.ix with the NaN rows dropped, source lines 485-489). -/
def dupFromBuses (net : Net) : List ℕ :=
  (((dupLineSwitchElems net).filter (fun el => net.linesIs.contains el)).filterMap
    (fun el => (lineAt net el).map (fun lr => lr.from_bus)))

/-- To buses of the duplicated-switch lines that are in the in-service view. -/
def dupToBuses (net : Net) : List ℕ :=
  (((dupLineSwitchElems net).filter (fun el => net.linesIs.contains el)).filterMap
    (fun el => (lineAt net el).map (fun lr => lr.to_bus)))

/-- The in-service line view after the duplicate drop (source line 501): the drop
happens only when duplicates exist and both endpoint vectors are nonempty. -/
def linesIsAfterDrop (net : Net) : List ℕ :=
  if 0 < (dupLineSwitchElems net).length then
    if 0 < (dupFromBuses net).length ∧ 0 < (dupToBuses net).length then
      net.linesIs.filter (fun l => !(dupLineSwitchElems net).contains l)
    else net.linesIs
  else net.linesIs

open Classical in
/-- The duplicate handling of _switch_branches (source lines 479-501): set the
branch rows whose from bus is among the duplicated from buses and whose to bus is
among the duplicated to buses out of service; dropping a label that is not in the
in-service frame raises KeyError. -/
noncomputable def _switch_branches_dup (net : Net) (branch : List (List ℂ)) :
    Except String (List (List ℂ)) :=
  if 0 < (dupLineSwitchElems net).length then
    if 0 < (dupFromBuses net).length ∧ 0 < (dupToBuses net).length then
      if (dupLineSwitchElems net).all (fun el => net.linesIs.contains el) then
        .ok (branch.map (fun row =>
          if (∃ f ∈ (dupFromBuses net).map net.busLookup, row.getD 0 0 = ((f : ℕ) : ℂ)) ∧
             (∃ t ∈ (dupToBuses net).map net.busLookup, row.getD 1 0 = ((t : ℕ) : ℂ)) then
            row.set BR_STATUS 0
          else row))
      else .error "KeyError: labels not found in axis"
    else .ok branch
  else .ok branch

/-- The open line switches that survive the refinement of slidx (source lines
503-506): element among the (possibly dropped) in-service lines, bus in service. -/
def processedLineSwitches (net : Net) : List SwitchRow :=
  net.switch.filter (fun s => !s.closed && s.et == "l" &&
    (linesIsAfterDrop net).contains s.element && net.busIs.contains s.bus)

/-- Source _gather_branch_switch_info: (1 if the switch is at the to/lv bus else 0,
switch bus, positional index of the element in its table); a missing label raises. -/
def _gather_branch_switch_info (net : Net) (bus branch_id : ℕ) (branch_type : String) :
    Except String (ℕ × ℕ × ℕ) :=
  if branch_type = "l" then
    match lineAt net branch_id, net.lineIdx.findIdx? (fun x => x == branch_id) with
    | some lr, some pos => .ok (if lr.to_bus == bus then 1 else 0, bus, pos)
    | _, _ => .error "KeyError: line label not found"
  else
    match trafoAt net branch_id, net.trafoIdx.findIdx? (fun x => x == branch_id) with
    | some tr, some pos => .ok (if tr.lv_bus == bus then 1 else 0, bus, pos)
    | _, _ => .error "KeyError: trafo label not found"

/-- The auxiliary bus appended for one open line switch (source lines 531-548):
template row, base voltage of the switch bus, and voltage magnitude/angle copied
from the branch endpoint on the switch side of the line (column T_BUS for a to-side
switch, F_BUS for a from-side switch, read before rerouting). -/
noncomputable def newLsBusRow (net : Net) (busM : List (List ℝ)) (branch1 : List (List ℂ))
    (idx : ℕ) (info : ℕ × ℕ × ℕ) : List ℝ :=
  let endIdx := if info.1 = 1 then cIdx (getCC branch1 info.2.2 1)
                else cIdx (getCC branch1 info.2.2 0)
  [(idx : ℝ), 1, 0, 0, 0, 0, 1,
   getRC busM endIdx 7, getRC busM endIdx 8,
   getRC busM (net.busLookup info.2.1) BASE_KV, 1, 1.1, 0.9]

/-- The auxiliary bus appended for one open trafo switch (source lines 576-599):
like the line case but the magnitude is multiplied by the row tap and the shift is
added to the angle; the branch reads index the matrix at the trafo position without
the line-count offset, exactly as the source does. -/
noncomputable def newTsBusRow (net : Net) (busM : List (List ℝ)) (branch2 : List (List ℂ))
    (idx : ℕ) (info : ℕ × ℕ × ℕ) : List ℝ :=
  let endIdx := if info.1 = 1 then cIdx (getCC branch2 info.2.2 1)
                else cIdx (getCC branch2 info.2.2 0)
  [(idx : ℝ), 1, 0, 0, 0, 0, 1,
   getRC busM endIdx 7 * (getCC branch2 info.2.2 TAP).re,
   getRC busM endIdx 8 + (getCC branch2 info.2.2 SHIFT).re,
   getRC busM (net.busLookup info.2.1) BASE_KV, 1, 1.1, 0.9]

/-- Reroute the switch-side endpoint of each line row to its new bus index
(source lines 552-556). -/
def rerouteLine (branch : List (List ℂ)) (nstart : ℕ) (lsInfo : List (ℕ × ℕ × ℕ)) :
    List (List ℂ) :=
  lsInfo.enum.foldl (fun br ki =>
    setCC br ki.2.2.2 (if ki.2.1 = 1 then 1 else 0) ((nstart + ki.1 : ℕ) : ℂ)) branch

/-- Reroute the switch-side endpoint of each trafo row, offset by the line count
(source lines 603-610). -/
def rerouteTrafo (branch : List (List ℂ)) (lineLen nstart : ℕ)
    (tsInfo : List (ℕ × ℕ × ℕ)) : List (List ℂ) :=
  tsInfo.enum.foldl (fun br ki =>
    setCC br (lineLen + ki.2.2.2) (if ki.2.1 = 1 then 1 else 0) ((nstart + ki.1 : ℕ) : ℂ)) branch

/-- The line-switch pass (source lines 515-558): gather switch info, append one new
bus per processed switch, reroute the line endpoints. -/
noncomputable def _switch_lines_pass (net : Net) (busM : List (List ℝ))
    (branch1 : List (List ℂ)) (n_bus : ℕ) :
    Except String (List (List ℝ) × List (List ℂ)) :=
  match exceptMap (fun s => _gather_branch_switch_info net s.bus s.element "l")
      (processedLineSwitches net) with
  | .error e => .error e
  | .ok lsInfo =>
    .ok (busM ++ (List.range (processedLineSwitches net).length).map (fun k =>
          newLsBusRow net busM branch1 (n_bus + k) (lsInfo.getD k (0, 0, 0))),
        rerouteLine branch1 n_bus lsInfo)

/-- The trafo-switch pass (source lines 560-612), running on the bus/branch state
left by the line pass. -/
noncomputable def _switch_trafos_pass (net : Net) (busM : List (List ℝ))
    (branch2 : List (List ℂ)) (nstart : ℕ) :
    Except String (List (List ℝ) × List (List ℂ)) :=
  match exceptMap (fun s => _gather_branch_switch_info net s.bus s.element "t")
      (openTrafoSwitches net) with
  | .error e => .error e
  | .ok tsInfo =>
    .ok (busM ++ (List.range (openTrafoSwitches net).length).map (fun k =>
          newTsBusRow net busM branch2 (nstart + k) (tsInfo.getD k (0, 0, 0))),
        rerouteTrafo branch2 net.line.length nstart tsInfo)

/-- Source _switch_branches: duplicate handling, then the line and trafo passes when
any switches remain to process. -/
noncomputable def _switch_branches (net : Net) (ppc : PPC2) : Except String PPC2 :=
  match _switch_branches_dup net ppc.branch with
  | .error e => .error e
  | .ok branch1 =>
    if (processedLineSwitches net).length + (openTrafoSwitches net).length = 0 then
      .ok { bus := ppc.bus, branch := branch1 }
    else
      match (if 0 < (processedLineSwitches net).length then
          _switch_lines_pass net ppc.bus branch1 ppc.bus.length
        else .ok (ppc.bus, branch1)) with
      | .error e => .error e
      | .ok bb2 =>
        if 0 < (openTrafoSwitches net).length then
          match _switch_trafos_pass net bb2.1 bb2.2
              (ppc.bus.length + (processedLineSwitches net).length) with
          | .error e => .error e
          | .ok bb3 => .ok { bus := bb3.1, branch := bb3.2 }
        else .ok { bus := bb2.1, branch := bb2.2 }

theorem getD_set_ne {α : Type u} {l : List α} {i j : ℕ} (h : j ≠ i) (v : α) (d : α) :
    (l.set i v).getD j d = l.getD j d := by
  cases Nat.lt_or_ge j l.length with
  | inl hlt =>
    rw [List.getD_eq_getElem _ _ (by simpa using hlt), List.getD_eq_getElem _ _ hlt]
    exact List.getElem_set_ne (Ne.symm h) _
  | inr hge =>
    rw [List.getD_eq_default _ _ (by simpa using hge), List.getD_eq_default _ _ hge]

theorem getCC_setCC_ne {m : List (List ℂ)} {i j : ℕ} (v : ℂ) {p col : ℕ} (h : col ≠ j) :
    getCC (setCC m i j v) p col = getCC m p col := by
  unfold getCC setCC
  rcases eq_or_ne p i with rfl | hpi
  · cases Nat.lt_or_ge p m.length with
    | inl hlt =>
      have h1 : (m.set p ((m.getD p []).set j v)).getD p [] = (m.getD p []).set j v := by
        rw [List.getD_eq_getElem _ _ (by simpa using hlt)]
        exact List.getElem_set_self _
      rw [h1]
      exact getD_set_ne h v 0
    | inr hge =>
      have h1 : (m.set p ((m.getD p []).set j v)).getD p [] = ([] : List ℂ) :=
        List.getD_eq_default _ _ (by simpa using hge)
      have h2 : m.getD p [] = ([] : List ℂ) := List.getD_eq_default _ _ hge
      rw [h1, h2]
  · exact congrArg (fun r => List.getD r col 0) (getD_set_ne hpi _ [])

theorem rerouteLine_length (branch : List (List ℂ)) (nstart : ℕ)
    (lsInfo : List (ℕ × ℕ × ℕ)) :
    (rerouteLine branch nstart lsInfo).length = branch.length := by
  unfold rerouteLine
  generalize lsInfo.enum = e
  induction e generalizing branch with
  | nil => rfl
  | cons a t ih =>
    rw [List.foldl_cons, ih]
    simp [setCC]

theorem rerouteTrafo_length (branch : List (List ℂ)) (lineLen nstart : ℕ)
    (tsInfo : List (ℕ × ℕ × ℕ)) :
    (rerouteTrafo branch lineLen nstart tsInfo).length = branch.length := by
  unfold rerouteTrafo
  generalize tsInfo.enum = e
  induction e generalizing branch with
  | nil => rfl
  | cons a t ih =>
    rw [List.foldl_cons, ih]
    simp [setCC]

theorem rerouteLine_status (branch : List (List ℂ)) (nstart : ℕ)
    (lsInfo : List (ℕ × ℕ × ℕ)) (p : ℕ) :
    getCC (rerouteLine branch nstart lsInfo) p BR_STATUS = getCC branch p BR_STATUS := by
  unfold rerouteLine
  generalize lsInfo.enum = e
  induction e generalizing branch with
  | nil => rfl
  | cons a t ih =>
    rw [List.foldl_cons, ih]
    by_cases ha : a.2.1 = 1
    · rw [if_pos ha]
      exact getCC_setCC_ne _ (by decide)
    · rw [if_neg ha]
      exact getCC_setCC_ne _ (by decide)

theorem rerouteTrafo_status (branch : List (List ℂ)) (lineLen nstart : ℕ)
    (tsInfo : List (ℕ × ℕ × ℕ)) (p : ℕ) :
    getCC (rerouteTrafo branch lineLen nstart tsInfo) p BR_STATUS =
      getCC branch p BR_STATUS := by
  unfold rerouteTrafo
  generalize tsInfo.enum = e
  induction e generalizing branch with
  | nil => rfl
  | cons a t ih =>
    rw [List.foldl_cons, ih]
    by_cases ha : a.2.1 = 1
    · rw [if_pos ha]
      exact getCC_setCC_ne _ (by decide)
    · rw [if_neg ha]
      exact getCC_setCC_ne _ (by decide)

theorem _switch_lines_pass_shape {net : Net} {busM : List (List ℝ)}
    {branch1 : List (List ℂ)} {n_bus : ℕ} {out : List (List ℝ) × List (List ℂ)}
    (h : _switch_lines_pass net busM branch1 n_bus = .ok out) :
    out.1.length = busM.length + (processedLineSwitches net).length ∧
    out.2.length = branch1.length ∧
    ∀ p, getCC out.2 p BR_STATUS = getCC branch1 p BR_STATUS := by
  unfold _switch_lines_pass at h
  rcases hg : exceptMap (fun s => _gather_branch_switch_info net s.bus s.element "l")
      (processedLineSwitches net) with e | lsInfo <;> rw [hg] at h
  · exact absurd h (by simp)
  · cases h
    exact ⟨by simp, rerouteLine_length _ _ _, fun p => rerouteLine_status _ _ _ p⟩

theorem _switch_trafos_pass_shape {net : Net} {busM : List (List ℝ)}
    {branch2 : List (List ℂ)} {nstart : ℕ} {out : List (List ℝ) × List (List ℂ)}
    (h : _switch_trafos_pass net busM branch2 nstart = .ok out) :
    out.1.length = busM.length + (openTrafoSwitches net).length ∧
    out.2.length = branch2.length ∧
    ∀ p, getCC out.2 p BR_STATUS = getCC branch2 p BR_STATUS := by
  unfold _switch_trafos_pass at h
  rcases hg : exceptMap (fun s => _gather_branch_switch_info net s.bus s.element "t")
      (openTrafoSwitches net) with e | tsInfo <;> rw [hg] at h
  · exact absurd h (by simp)
  · cases h
    exact ⟨by simp, rerouteTrafo_length _ _ _ _, fun p => rerouteTrafo_status _ _ _ _ p⟩

theorem _switch_branches_dup_ok_length {net : Net} {branch br1 : List (List ℂ)}
    (h : _switch_branches_dup net branch = .ok br1) : br1.length = branch.length := by
  unfold _switch_branches_dup at h
  split at h
  · split at h
    · split at h
      · cases h
        simp
      · exact absurd h (by simp)
    · cases h
      rfl
  · cases h
    rfl

theorem mem_dup_aux (xs : List ℕ) (seen : List ℕ) (l : ℕ)
    (h : 2 ≤ xs.count l ∨ (1 ≤ xs.count l ∧ l ∈ seen)) :
    l ∈ ((xs.zip (firstOccMask seen xs)).filter (fun p => !p.2)).map (fun p => p.1) := by
  induction xs generalizing seen with
  | nil =>
    rcases h with h | ⟨h, _⟩ <;> simp at h
  | cons x t ih =>
    have hcnt : (x :: t).count l = t.count l + (if x = l then 1 else 0) := by
      simp [List.count_cons]
    have hzip : (x :: t).zip (firstOccMask seen (x :: t)) =
        (x, !seen.contains x) :: t.zip (firstOccMask (x :: seen) t) := rfl
    rw [hzip]
    by_cases hx : x = l
    · subst hx
      by_cases hseen : x ∈ seen
      · refine List.mem_map.mpr ⟨(x, !seen.contains x), ?_, rfl⟩
        rw [List.mem_filter]
        refine ⟨List.mem_cons_self _ _, ?_⟩
        have hc : seen.contains x = true := by simpa using hseen
        simp only [hc]
        rfl
      · have h1 : 1 ≤ t.count x := by
          rcases h with h | ⟨h, hmem⟩
          · rw [hcnt, if_pos rfl] at h
            omega
          · exact absurd hmem hseen
        have htail := ih (x :: seen) (Or.inr ⟨h1, List.mem_cons_self _ _⟩)
        obtain ⟨p, hp, hpl⟩ := List.mem_map.mp htail
        obtain ⟨hpm, hpq⟩ := List.mem_filter.mp hp
        exact List.mem_map.mpr ⟨p, List.mem_filter.mpr ⟨List.mem_cons_of_mem _ hpm, hpq⟩, hpl⟩
    · have hh : 2 ≤ t.count l ∨ (1 ≤ t.count l ∧ l ∈ x :: seen) := by
        rcases h with h | ⟨h, hmem⟩
        · left
          rw [hcnt, if_neg hx] at h
          omega
        · right
          rw [hcnt, if_neg hx] at h
          exact ⟨by omega, List.mem_cons_of_mem _ hmem⟩
      have htail := ih (x :: seen) hh
      obtain ⟨p, hp, hpl⟩ := List.mem_map.mp htail
      obtain ⟨hpm, hpq⟩ := List.mem_filter.mp hp
      exact List.mem_map.mpr ⟨p, List.mem_filter.mpr ⟨List.mem_cons_of_mem _ hpm, hpq⟩, hpl⟩

theorem mem_dupElems_of_count {net : Net} {l : ℕ}
    (h : 2 ≤ ((openLineSwitches net).map (fun s => s.element)).count l) :
    l ∈ dupLineSwitchElems net := by
  unfold dupLineSwitchElems
  exact mem_dup_aux _ [] l (Or.inl h)

theorem mem_dupFromBuses {net : Net} {l : ℕ} {lr : LineRow}
    (hd : l ∈ dupLineSwitchElems net) (hin : l ∈ net.linesIs)
    (hat : lineAt net l = some lr) : lr.from_bus ∈ dupFromBuses net := by
  unfold dupFromBuses
  rw [List.mem_filterMap]
  refine ⟨l, ?_, ?_⟩
  · rw [List.mem_filter]
    exact ⟨hd, by simpa using hin⟩
  · rw [hat]
    rfl

theorem mem_dupToBuses {net : Net} {l : ℕ} {lr : LineRow}
    (hd : l ∈ dupLineSwitchElems net) (hin : l ∈ net.linesIs)
    (hat : lineAt net l = some lr) : lr.to_bus ∈ dupToBuses net := by
  unfold dupToBuses
  rw [List.mem_filterMap]
  refine ⟨l, ?_, ?_⟩
  · rw [List.mem_filter]
    exact ⟨hd, by simpa using hin⟩
  · rw [hat]
    rfl

theorem getCC_map_row (f : List ℂ → List ℂ) (m : List (List ℂ)) (pos col : ℕ)
    (h : pos < m.length) :
    getCC (m.map f) pos col = (f m[pos]).getD col 0 := by
  unfold getCC
  have hrow : (m.map f).getD pos [] = f m[pos] := by
    rw [List.getD_eq_getElem _ _ (by simpa using h)]
    exact List.getElem_map _
  rw [hrow]

theorem _switch_branches_dup_disables {net : Net} {branch br1 : List (List ℂ)}
    (h : _switch_branches_dup net branch = .ok br1)
    {l : ℕ} {lr : LineRow} (hd : l ∈ dupLineSwitchElems net) (hin : l ∈ net.linesIs)
    (hat : lineAt net l = some lr) (pos : ℕ) (hpos : pos < branch.length)
    (hw : BR_STATUS < (branch.getD pos []).length)
    (h0 : getCC branch pos 0 = ((net.busLookup lr.from_bus : ℕ) : ℂ))
    (h1 : getCC branch pos 1 = ((net.busLookup lr.to_bus : ℕ) : ℂ)) :
    getCC br1 pos BR_STATUS = 0 ∧ l ∉ linesIsAfterDrop net := by
  have hfrom := mem_dupFromBuses hd hin hat
  have hto := mem_dupToBuses hd hin hat
  have hdn : 0 < (dupLineSwitchElems net).length :=
    List.length_pos.mpr (List.ne_nil_of_mem hd)
  have hfn : 0 < (dupFromBuses net).length :=
    List.length_pos.mpr (List.ne_nil_of_mem hfrom)
  have htn : 0 < (dupToBuses net).length :=
    List.length_pos.mpr (List.ne_nil_of_mem hto)
  constructor
  · unfold _switch_branches_dup at h
    rw [if_pos hdn, if_pos ⟨hfn, htn⟩] at h
    split at h
    · cases h
      rw [getCC_map_row _ _ _ _ hpos]
      have hrow : branch.getD pos [] = branch[pos] := List.getD_eq_getElem _ _ hpos
      have hcond : (∃ f ∈ (dupFromBuses net).map net.busLookup,
          (branch[pos]).getD 0 0 = ((f : ℕ) : ℂ)) ∧
          (∃ t ∈ (dupToBuses net).map net.busLookup,
          (branch[pos]).getD 1 0 = ((t : ℕ) : ℂ)) := by
        constructor
        · refine ⟨net.busLookup lr.from_bus, List.mem_map_of_mem _ hfrom, ?_⟩
          unfold getCC at h0
          rw [hrow] at h0
          exact h0
        · refine ⟨net.busLookup lr.to_bus, List.mem_map_of_mem _ hto, ?_⟩
          unfold getCC at h1
          rw [hrow] at h1
          exact h1
      rw [if_pos hcond]
      have hw2 : BR_STATUS < (branch[pos]).length := by
        rwa [hrow] at hw
      rw [List.getD_eq_getElem _ _ (by simpa using hw2)]
      exact List.getElem_set_self _
    · exact absurd h (by simp)
  · unfold linesIsAfterDrop
    rw [if_pos hdn, if_pos ⟨hfn, htn⟩]
    intro hmem
    rw [List.mem_filter] at hmem
    have hc : (dupLineSwitchElems net).contains l = true := by simpa using hd
    rw [hc] at hmem
    simp at hmem

theorem processed_ne_of_notMem {net : Net} {l : ℕ} (hnm : l ∉ linesIsAfterDrop net) :
    ∀ s ∈ processedLineSwitches net, s.element ≠ l := by
  intro s hs heq
  unfold processedLineSwitches at hs
  rw [List.mem_filter] at hs
  have hb := hs.2
  simp only [Bool.and_eq_true] at hb
  have hcont : (linesIsAfterDrop net).contains s.element = true := hb.1.2
  apply hnm
  rw [← heq]
  simpa using hcont

/-- C2: a completed switch materialization never changes the branch-row count and
grows the bus rows by exactly the number of open switches processed (the open line
switches at surviving in-service lines and in-service buses, plus all open trafo
switches); a line carrying more than one open switch has its branch row set out of
service and none of its switches is processed, so it contributes no auxiliary bus. -/
theorem c2_switch_materialization (net : Net) (ppc : PPC2) (res : PPC2)
    (h : _switch_branches net ppc = .ok res) :
    res.branch.length = ppc.branch.length ∧
    res.bus.length = ppc.bus.length + (processedLineSwitches net).length +
      (openTrafoSwitches net).length ∧
    (∀ l lr pos, 2 ≤ ((openLineSwitches net).map (fun s => s.element)).count l →
      l ∈ net.linesIs → lineAt net l = some lr →
      pos < ppc.branch.length → BR_STATUS < (ppc.branch.getD pos []).length →
      getCC ppc.branch pos 0 = ((net.busLookup lr.from_bus : ℕ) : ℂ) →
      getCC ppc.branch pos 1 = ((net.busLookup lr.to_bus : ℕ) : ℂ) →
      getCC res.branch pos BR_STATUS = 0 ∧
      ∀ s ∈ processedLineSwitches net, s.element ≠ l) := by
  unfold _switch_branches at h
  rcases hdup : _switch_branches_dup net ppc.branch with e | branch1 <;> simp only [hdup] at h
  · exact absurd h (by simp)
  have hlen1 : branch1.length = ppc.branch.length := _switch_branches_dup_ok_length hdup
  by_cases hzero : (processedLineSwitches net).length + (openTrafoSwitches net).length = 0
  · rw [if_pos hzero] at h
    injection h with h
    subst h
    refine ⟨hlen1, by simp only []; omega, ?_⟩
    intro l lr pos hcnt hin hat hpos hw h0 h1
    obtain ⟨hst, hnm⟩ := _switch_branches_dup_disables hdup (mem_dupElems_of_count hcnt)
      hin hat pos hpos hw h0 h1
    exact ⟨hst, processed_ne_of_notMem hnm⟩
  · rw [if_neg hzero] at h
    rcases hlp : (if 0 < (processedLineSwitches net).length then
        _switch_lines_pass net ppc.bus branch1 ppc.bus.length
      else .ok (ppc.bus, branch1)) with e | bb2 <;> simp only [hlp] at h
    · exact absurd h (by simp)
    obtain ⟨hb1, hb2, hb3⟩ : bb2.1.length = ppc.bus.length +
        (processedLineSwitches net).length ∧ bb2.2.length = branch1.length ∧
        ∀ p, getCC bb2.2 p BR_STATUS = getCC branch1 p BR_STATUS := by
      by_cases hc : 0 < (processedLineSwitches net).length
      · rw [if_pos hc] at hlp
        exact _switch_lines_pass_shape hlp
      · rw [if_neg hc] at hlp
        injection hlp with hlp
        subst hlp
        refine ⟨?_, rfl, fun p => rfl⟩
        show ppc.bus.length = ppc.bus.length + (processedLineSwitches net).length
        omega
    by_cases hct : 0 < (openTrafoSwitches net).length
    · rw [if_pos hct] at h
      rcases htp : _switch_trafos_pass net bb2.1 bb2.2
          (ppc.bus.length + (processedLineSwitches net).length) with e | bb3 <;>
        simp only [htp] at h
      · exact absurd h (by simp)
      injection h with h
      subst h
      obtain ⟨ht1, ht2, ht3⟩ := _switch_trafos_pass_shape htp
      refine ⟨?_, ?_, ?_⟩
      · show bb3.2.length = ppc.branch.length
        rw [ht2, hb2, hlen1]
      · show bb3.1.length = ppc.bus.length + (processedLineSwitches net).length +
          (openTrafoSwitches net).length
        rw [ht1, hb1]
      · intro l lr pos hcnt hin hat hpos hw h0 h1
        obtain ⟨hst, hnm⟩ := _switch_branches_dup_disables hdup
          (mem_dupElems_of_count hcnt) hin hat pos hpos hw h0 h1
        refine ⟨?_, processed_ne_of_notMem hnm⟩
        show getCC bb3.2 pos BR_STATUS = 0
        rw [ht3 pos, hb3 pos, hst]
    · rw [if_neg hct] at h
      injection h with h
      subst h
      refine ⟨?_, ?_, ?_⟩
      · show bb2.2.length = ppc.branch.length
        rw [hb2, hlen1]
      · show bb2.1.length = ppc.bus.length + (processedLineSwitches net).length +
          (openTrafoSwitches net).length
        rw [hb1]
        omega
      · intro l lr pos hcnt hin hat hpos hw h0 h1
        obtain ⟨hst, hnm⟩ := _switch_branches_dup_disables hdup
          (mem_dupElems_of_count hcnt) hin hat pos hpos hw h0 h1
        refine ⟨?_, processed_ne_of_notMem hnm⟩
        show getCC bb2.2 pos BR_STATUS = 0
        rw [hb3 pos, hst]

theorem cIdx_one : cIdx (1 : ℂ) = 1 := by
  simp [cIdx]

/-- Concrete net for the C3 evaluation: one line from bus 0 to bus 1 with one open
switch at the to bus (bus 1). -/
noncomputable def cnet3 : Net :=
  { sn_kva := 1000, f_hz := 50,
    line := [{ from_bus := 0, to_bus := 1, length_km := 5, r_ohm_per_km := 1,
               x_ohm_per_km := 2, c_nf_per_km := 10, parallel := 1, in_service := true,
               max_loading_percent := 0, max_i_ka := 0, df := 0 }],
    lineIdx := [0], trafo := [], trafoIdx := [], trafo3w := [], impedance := [],
    xward := [], xwardIs := [],
    switch := [{ bus := 1, element := 0, et := "l", closed := false }],
    linesIs := [0], busIs := [0, 1], busLookup := id, busVnKv := fun _ => 0,
    trafoHasStDegree := false }

/-- Concrete ppc for the C3 evaluation: bus 0 has vm 1, va 10; bus 1 has vm 2,
va 30; one line branch row 0 -> 1. -/
noncomputable def cppc3 : PPC2 :=
  { bus := [[0, 1, 0, 0, 0, 0, 1, 1, 10, 20, 1, 1.1, 0.9],
            [1, 1, 0, 0, 0, 0, 1, 2, 30, 20, 1, 1.1, 0.9]],
    branch := [[0, 1, 0, 0, 0, 250, 250, 250, 1, 0, 1, -360, 360, 0, 0, 0, 0, 0, 0]] }

theorem cnet3_dup : _switch_branches_dup cnet3 cppc3.branch = .ok cppc3.branch := by
  unfold _switch_branches_dup
  rw [if_neg (by decide)]

theorem cnet3_gather :
    exceptMap (fun s => _gather_branch_switch_info cnet3 s.bus s.element "l")
      (processedLineSwitches cnet3) = .ok [(1, 1, 0)] := by
  rfl

theorem cnet3_lines_pass :
    _switch_lines_pass cnet3 cppc3.bus cppc3.branch cppc3.bus.length =
      .ok (cppc3.bus ++ [newLsBusRow cnet3 cppc3.bus cppc3.branch 2 (1, 1, 0)],
        rerouteLine cppc3.branch 2 [(1, 1, 0)]) := by
  unfold _switch_lines_pass
  rw [cnet3_gather]
  rfl

theorem cnet3_run :
    _switch_branches cnet3 cppc3 =
      .ok { bus := cppc3.bus ++ [newLsBusRow cnet3 cppc3.bus cppc3.branch 2 (1, 1, 0)],
            branch := rerouteLine cppc3.branch 2 [(1, 1, 0)] } := by
  unfold _switch_branches
  rw [cnet3_dup]
  show (if (processedLineSwitches cnet3).length + (openTrafoSwitches cnet3).length = 0
    then _ else _) = _
  rw [if_neg (by decide), if_pos (by decide)]
  rw [cnet3_lines_pass]
  show (if 0 < (openTrafoSwitches cnet3).length then _ else _) = _
  rw [if_neg (by decide)]

/-- C3: evaluation of the embedded topology materializer at the failing input: the
auxiliary bus created for the open switch at the to bus of the line receives the
voltage estimate of the to-side endpoint (vm 2, va 30), not that of the other,
still-connected end (bus 0, vm 1, va 10) as the claim states. -/
theorem c3_aux_bus_voltage_from_switch_side :
    ∃ res, _switch_branches cnet3 cppc3 = .ok res ∧
      (res.bus.getD 2 []).getD 7 0 = 2 ∧ (res.bus.getD 2 []).getD 8 0 = 30 ∧
      (cppc3.bus.getD 0 []).getD 7 0 = 1 ∧ (cppc3.bus.getD 0 []).getD 8 0 = 10 ∧
      ¬ ((res.bus.getD 2 []).getD 7 0 = (cppc3.bus.getD 0 []).getD 7 0) := by
  refine ⟨_, cnet3_run, ?_, ?_, ?_, ?_, ?_⟩
  all_goals
    have hrow : ((cppc3.bus ++ [newLsBusRow cnet3 cppc3.bus cppc3.branch 2 (1, 1, 0)]).getD
        2 ([] : List ℝ)) = newLsBusRow cnet3 cppc3.bus cppc3.branch 2 (1, 1, 0) := by
      rfl
  · show ((cppc3.bus ++ [newLsBusRow cnet3 cppc3.bus cppc3.branch 2 (1, 1, 0)]).getD
      2 []).getD 7 0 = 2
    rw [hrow]
    unfold newLsBusRow
    have hend : (if ((1, 1, 0) : ℕ × ℕ × ℕ).1 = 1 then
        cIdx (getCC cppc3.branch (((1, 1, 0) : ℕ × ℕ × ℕ)).2.2 1)
        else cIdx (getCC cppc3.branch (((1, 1, 0) : ℕ × ℕ × ℕ)).2.2 0)) = 1 := by
      rw [if_pos rfl]
      rw [show getCC cppc3.branch 0 1 = (1 : ℂ) from rfl]
      exact cIdx_one
    rw [hend]
    rfl
  · show ((cppc3.bus ++ [newLsBusRow cnet3 cppc3.bus cppc3.branch 2 (1, 1, 0)]).getD
      2 []).getD 8 0 = 30
    rw [hrow]
    unfold newLsBusRow
    have hend : (if ((1, 1, 0) : ℕ × ℕ × ℕ).1 = 1 then
        cIdx (getCC cppc3.branch (((1, 1, 0) : ℕ × ℕ × ℕ)).2.2 1)
        else cIdx (getCC cppc3.branch (((1, 1, 0) : ℕ × ℕ × ℕ)).2.2 0)) = 1 := by
      rw [if_pos rfl]
      rw [show getCC cppc3.branch 0 1 = (1 : ℂ) from rfl]
      exact cIdx_one
    rw [hend]
    rfl
  · rfl
  · rfl
  · show ¬ (((cppc3.bus ++ [newLsBusRow cnet3 cppc3.bus cppc3.branch 2 (1, 1, 0)]).getD
      2 []).getD 7 0 = (cppc3.bus.getD 0 []).getD 7 0)
    rw [hrow]
    unfold newLsBusRow
    have hend : (if ((1, 1, 0) : ℕ × ℕ × ℕ).1 = 1 then
        cIdx (getCC cppc3.branch (((1, 1, 0) : ℕ × ℕ × ℕ)).2.2 1)
        else cIdx (getCC cppc3.branch (((1, 1, 0) : ℕ × ℕ × ℕ)).2.2 0)) = 1 := by
      rw [if_pos rfl]
      rw [show getCC cppc3.branch 0 1 = (1 : ℂ) from rfl]
      exact cIdx_one
    rw [hend]
    show ¬ ((2 : ℝ) = 1)
    norm_num

/-- Concrete net for the C2 witness: one line from bus 0 to bus 1 with one open
switch at the from bus. -/
noncomputable def cnet2 : Net :=
  { sn_kva := 1000, f_hz := 50,
    line := [{ from_bus := 0, to_bus := 1, length_km := 5, r_ohm_per_km := 1,
               x_ohm_per_km := 2, c_nf_per_km := 10, parallel := 1, in_service := true,
               max_loading_percent := 0, max_i_ka := 0, df := 0 }],
    lineIdx := [0], trafo := [], trafoIdx := [], trafo3w := [], impedance := [],
    xward := [], xwardIs := [],
    switch := [{ bus := 0, element := 0, et := "l", closed := false }],
    linesIs := [0], busIs := [0, 1], busLookup := id, busVnKv := fun _ => 0,
    trafoHasStDegree := false }

/-- Concrete ppc for the C2 witness. -/
noncomputable def cppc2 : PPC2 :=
  { bus := [[0, 1, 0, 0, 0, 0, 1, 1, 0, 20, 1, 1.1, 0.9],
            [1, 1, 0, 0, 0, 0, 1, 1, 0, 20, 1, 1.1, 0.9]],
    branch := [[0, 1, 0, 0, 0, 250, 250, 250, 1, 0, 1, -360, 360, 0, 0, 0, 0, 0, 0]] }

theorem cnet2_dup : _switch_branches_dup cnet2 cppc2.branch = .ok cppc2.branch := by
  unfold _switch_branches_dup
  rw [if_neg (by decide)]

theorem cnet2_gather :
    exceptMap (fun s => _gather_branch_switch_info cnet2 s.bus s.element "l")
      (processedLineSwitches cnet2) = .ok [(0, 0, 0)] := by
  rfl

theorem cnet2_lines_pass :
    _switch_lines_pass cnet2 cppc2.bus cppc2.branch cppc2.bus.length =
      .ok (cppc2.bus ++ [newLsBusRow cnet2 cppc2.bus cppc2.branch 2 (0, 0, 0)],
        rerouteLine cppc2.branch 2 [(0, 0, 0)]) := by
  unfold _switch_lines_pass
  rw [cnet2_gather]
  rfl

theorem cnet2_run :
    _switch_branches cnet2 cppc2 =
      .ok { bus := cppc2.bus ++ [newLsBusRow cnet2 cppc2.bus cppc2.branch 2 (0, 0, 0)],
            branch := rerouteLine cppc2.branch 2 [(0, 0, 0)] } := by
  unfold _switch_branches
  rw [cnet2_dup]
  show (if (processedLineSwitches cnet2).length + (openTrafoSwitches cnet2).length = 0
    then _ else _) = _
  rw [if_neg (by decide), if_pos (by decide)]
  rw [cnet2_lines_pass]
  show (if 0 < (openTrafoSwitches cnet2).length then _ else _) = _
  rw [if_neg (by decide)]

/-- Witness for C2: on the concrete one-switch net the materialization succeeds, the
branch-row count is unchanged and the bus rows grow by exactly the one processed
switch. -/
theorem c2_switch_materialization_witness :
    ∃ res, _switch_branches cnet2 cppc2 = .ok res ∧
      res.branch.length = cppc2.branch.length ∧
      res.bus.length = cppc2.bus.length + (processedLineSwitches cnet2).length +
        (openTrafoSwitches cnet2).length ∧
      res.bus.length = 3 := by
  have h := c2_switch_materialization cnet2 cppc2 _ cnet2_run
  refine ⟨_, cnet2_run, h.1, h.2.1, ?_⟩
  rw [h.2.1]
  decide

end Pandapower
